import Mathlib

/-!
Verification development for the ChannelSmith texture packing/unpacking core.

The definitions below are a shallow embedding of the Python modules
`channelsmith/core/validator.py`, `channelsmith/core/packing_engine.py`,
`channelsmith/core/unpacking_engine.py`, `channelsmith/core/channel_map.py`,
`channelsmith/core/packing_template.py` and
`channelsmith/templates/template_loader.py`.

Modelling conventions:
- A NumPy 2D buffer is `NpArray`: a shape `(height, width)` plus a total
  function giving the integer sample at each index.  The element values are
  `Int` so that buffers of any numeric dtype (values possibly outside
  0..255) are representable; the dimensionality and numeric-dtype checks of
  `validate_channel_data` are intrinsic to the type and only the emptiness
  and expected-shape checks remain as runtime checks.
- Python floats are modelled as rationals; the claims only exercise values
  where Python float arithmetic is exact (multiples of small dyadics).
- Python exceptions are the constructors of `PyError`; distinct raise sites
  with distinct meanings get distinct constructors (the spec groups them
  into error kinds such as InvalidStateError or TemplateValidationError).
- Python dicts keyed by strings are association lists with
  last-write-wins update (`pyDictSet`) and first-match lookup (`pyDictGet`);
  the update discipline keeps keys unique, matching dict semantics.
-/

namespace ChannelSmith

/-- A 2D NumPy array of samples: shape `(height, width)`, row-major.
`data i j` is the sample at row `i`, column `j`; total function, values
outside the shape are irrelevant to every statement below. -/
structure NpArray where
  height : Nat
  width : Nat
  data : Nat → Nat → Int

/-- Extensional equality of buffers on their shape: same shape and same
samples at every in-range index (byte-identical rasters). -/
def BufEq (x y : NpArray) : Prop :=
  x.height = y.height ∧ x.width = y.width ∧
    ∀ i, i < x.height → ∀ j, j < x.width → x.data i j = y.data i j

/-- All in-range samples are unsigned 8-bit values (the buffer could have
dtype uint8). -/
@[reducible]
def Uint8Valued (x : NpArray) : Prop :=
  ∀ i, i < x.height → ∀ j, j < x.width → 0 ≤ x.data i j ∧ x.data i j ≤ 255

/-- A buffer of zeros, `np.zeros((h, w), dtype=np.uint8)`. -/
def zerosArr (h w : Nat) : NpArray :=
  ⟨h, w, fun _ _ => 0⟩

/-- A constant buffer, `np.full((h, w), v, dtype=np.uint8)` (the engine only
fills with values in 0..255, where uint8 storage is exact). -/
def constArr (h w : Nat) (v : Int) : NpArray :=
  ⟨h, w, fun _ _ => v⟩

/-- The Python exceptions raised by the core, one constructor per distinct
raise meaning.  `valueError` covers the generic ValueError raises
(empty input list, all-channels-None, bad target size, out-of-range
default); `cannotExtractAlpha` is the ValueError of
`extract_channel` for a missing alpha plane (the spec's InvalidStateError
kind); `invalidChannelKey` is the ValueError for a channel key outside
R/G/B/A (the spec's InputError kind). -/
inductive PyError where
  | valueError
  | typeMismatch
  | keyError
  | invalidChannelData
  | resolutionMismatch
  | cannotExtractAlpha
  | invalidChannelKey
  | templateValidationError
  | fileNotFound
deriving DecidableEq, Repr

/-- `validator.validate_channel_data(data, expected_shape, allow_empty)`
(validator.py lines 109-167).  The ndim-2 and numeric-dtype checks hold by
the `NpArray` type itself; the emptiness and expected-shape checks are
modelled. -/
def validate_channel_data (arr : NpArray) (expectedShape : Option (Nat × Nat))
    (allowEmpty : Bool) : Except PyError Unit :=
  if arr.height * arr.width = 0 ∧ allowEmpty = false then
    .error .invalidChannelData
  else
    match expectedShape with
    | some (eh, ew) =>
        if arr.height = eh ∧ arr.width = ew then .ok () else .error .invalidChannelData
    | none => .ok ()

/-- The validation for-loop of `pack_channels` (packing_engine.py lines
134-135): validate every array, first failure wins. -/
def validateAll : List NpArray → Except PyError Unit
  | [] => .ok ()
  | arr :: rest =>
      match validate_channel_data arr none false with
      | .error e => .error e
      | .ok _ => validateAll rest

/-- Clip an integer sample into 0..255: the value effect of
`np.clip(array, 0, 255).astype(np.uint8)` inside
`image_utils.from_grayscale` (image_utils.py lines 233-235).  A uint8 array
skips the clip in Python, but its values are already in range, so the value
semantics agree for every dtype. -/
def clip8 (v : Int) : Int :=
  max 0 (min v 255)

/-- Bilinear resampling of a single-channel raster, modelling the
collaborator call `img.resize((tw, th), Image.BILINEAR)` used by
`normalize_resolution`  (packing_engine.py line 78; spec section 4.4 fixes
only "bilinear interpolation").  Standard half-pixel-centre bilinear
sampling with edge clamping and round-to-nearest; no theorem below depends
on the values this produces, only that resized buffers have the target
shape. -/
def resizeBilinear (src : NpArray) (tw th : Nat) : NpArray :=
  ⟨th, tw, fun i j =>
    let w : ℚ := src.width
    let h : ℚ := src.height
    let sx : ℚ := ((j : ℚ) + 1/2) * w / (tw : ℚ) - 1/2
    let sy : ℚ := ((i : ℚ) + 1/2) * h / (th : ℚ) - 1/2
    let x0 : Int := max 0 (min (Int.floor sx) (src.width - 1 : Int))
    let y0 : Int := max 0 (min (Int.floor sy) (src.height - 1 : Int))
    let x1 : Int := min (x0 + 1) (src.width - 1 : Int)
    let y1 : Int := min (y0 + 1) (src.height - 1 : Int)
    let fx : ℚ := max 0 (min (sx - (x0 : ℚ)) 1)
    let fy : ℚ := max 0 (min (sy - (y0 : ℚ)) 1)
    let v00 : ℚ := src.data y0.toNat x0.toNat
    let v01 : ℚ := src.data y0.toNat x1.toNat
    let v10 : ℚ := src.data y1.toNat x0.toNat
    let v11 : ℚ := src.data y1.toNat x1.toNat
    let top : ℚ := v00 * (1 - fx) + v01 * fx
    let bot : ℚ := v10 * (1 - fx) + v11 * fx
    Int.floor (top * (1 - fy) + bot * fy + 1/2)⟩

/-- The resize branch of `normalize_resolution` (packing_engine.py lines
74-82): `to_grayscale(from_grayscale(arr).resize(target, BILINEAR))`.
`from_grayscale` clips non-uint8 samples into 0..255 before the image is
built; `to_grayscale` reads the samples back unchanged. -/
def resizeArr (arr : NpArray) (tw th : Nat) : NpArray :=
  resizeBilinear ⟨arr.height, arr.width, fun i j => clip8 (arr.data i j)⟩ tw th

/-- The per-array loop of `normalize_resolution` (packing_engine.py lines
62-82): validate, then pass through unchanged when already at the target
size, else resize. -/
def normalizeList (tw th : Nat) : List NpArray → Except PyError (List NpArray)
  | [] => .ok []
  | arr :: rest =>
      match validate_channel_data arr none false with
      | .error e => .error e
      | .ok _ =>
          let a := if arr.width = tw ∧ arr.height = th then arr else resizeArr arr tw th
          match normalizeList tw th rest with
          | .error e => .error e
          | .ok others => .ok (a :: others)

/-- `packing_engine.normalize_resolution(arrays, target_size)`
(packing_engine.py lines 21-84). -/
def normalize_resolution (arrays : List NpArray) (targetSize : Nat × Nat) :
    Except PyError (List NpArray) :=
  if arrays.isEmpty then .error .valueError
  else if targetSize.1 = 0 ∨ targetSize.2 = 0 then .error .valueError
  else normalizeList targetSize.1 targetSize.2 arrays

/-- The packed raster produced by `np.stack(final_channels, axis=2)`
(packing_engine.py line 167): `data c i j` is plane `c` (0=R, 1=G, 2=B,
3=A) at row `i`, column `j`; `nch` is 3 for RGB, 4 for RGBA. -/
structure Stacked where
  height : Nat
  width : Nat
  nch : Nat
  data : Nat → Nat → Nat → Int

/-- The `valid_channels` list of `pack_channels` (packing_engine.py lines
123-127): the provided channels paired with their slot names, in R, G, B, A
order. -/
def packValidChannels (r g b a : Option NpArray) : List (NpArray × String) :=
  ([(r, "R"), (g, "G"), (b, "B"), (a, "A")]).filterMap
    (fun p => p.1.map (fun arr => (arr, p.2)))

/-- The `valid_arrays` list of `pack_channels` (packing_engine.py line
133). -/
def packProvided (r g b a : Option NpArray) : List NpArray :=
  (packValidChannels r g b a).map (·.1)

/-- `max_height` of `pack_channels` (packing_engine.py line 138). -/
def packMaxH (r g b a : Option NpArray) : Nat :=
  ((packProvided r g b a).map (·.height)).foldl Nat.max 0

/-- `max_width` of `pack_channels` (packing_engine.py line 139). -/
def packMaxW (r g b a : Option NpArray) : Nat :=
  ((packProvided r g b a).map (·.width)).foldl Nat.max 0

/-- The per-array effect of `normalize_resolution`: pass through at target
size, else resize. -/
def packNf (tw th : Nat) (arr : NpArray) : NpArray :=
  if arr.width = tw ∧ arr.height = th then arr else resizeArr arr tw th

/-- The assembly tail of `pack_channels` (packing_engine.py lines 145-172):
map slot names to normalized arrays, fill the missing R/G/B slots with
zeros, append A when provided, and stack. -/
def packAssemble (maxH maxW : Nat) (r g b a : Option NpArray)
    (normalized : List NpArray) : Stacked :=
  let validChannels := packValidChannels r g b a
  let normalizedMap := (validChannels.map (·.2)).zip normalized
  let findCh := fun n => (normalizedMap.find? (fun p => p.1 = n)).map (·.2)
  let finalR := (findCh "R").getD (zerosArr maxH maxW)
  let finalG := (findCh "G").getD (zerosArr maxH maxW)
  let finalB := (findCh "B").getD (zerosArr maxH maxW)
  let finalChannels :=
    [finalR, finalG, finalB] ++
      (match findCh "A" with | some arrA => [arrA] | none => [])
  { height := maxH, width := maxW, nch := finalChannels.length,
    data := fun c i j => ((finalChannels.get? c).map (fun arr => arr.data i j)).getD 0 }

/-- `packing_engine.pack_channels(r, g, b, a)` (packing_engine.py lines
87-172), up to and including the channel stack; `Image.fromarray` then
wraps the stack without changing samples (modelled by `Stacked.toImage`
below). -/
def pack_channels (r g b a : Option NpArray) : Except PyError Stacked :=
  if (packValidChannels r g b a).isEmpty then .error .valueError
  else
    match validateAll (packProvided r g b a) with
    | .error e => .error e
    | .ok _ =>
        match normalize_resolution (packProvided r g b a)
            (packMaxW r g b a, packMaxH r g b a) with
        | .error e => .error e
        | .ok normalized =>
            .ok (packAssemble (packMaxH r g b a) (packMaxW r g b a) r g b a normalized)

/-- ASCII title-casing step for Python `str.title()`: the first letter of
each run of letters is uppercased and the rest lowercased; every non-letter
starts a new word.  Used only through `autoDescription`, and every theorem
below needs only that it is a function of the input string. -/
def pyTitleAux : Bool → List Char → List Char
  | _, [] => []
  | prevCased, c :: cs =>
      if c.isAlpha then
        (if prevCased then c.toLower else c.toUpper) :: pyTitleAux true cs
      else
        c :: pyTitleAux false cs

/-- Python `s.title()` (ASCII). -/
def pyTitle (s : String) : String :=
  ⟨pyTitleAux false s.data⟩

/-- The auto-generated channel description
`map_type.replace('_', ' ').title()` (channel_map.py line 63,
template_loader.py line 181). -/
def autoDescription (mapType : String) : String :=
  pyTitle (mapType.replace "_" " ")

/-- `channel_map.ChannelMap`: one texture-map semantic type
(channel_map.py lines 12-94).  The Python object is immutable after
construction; construction goes through `mkChannelMap`. -/
structure ChannelMap where
  map_type : String
  default_value : ℚ
  description : String
deriving DecidableEq

/-- The `ChannelMap.__init__` contract (channel_map.py lines 33-63):
reject a default outside 0..1 with ValueError, and resolve the description
with Python `description or map_type.replace('_', ' ').title()` (a missing
or empty description falls back to the auto-generated one). -/
def mkChannelMap (mapType : String) (defaultValue : ℚ) (descr : Option String) :
    Except PyError ChannelMap :=
  if 0 ≤ defaultValue ∧ defaultValue ≤ 1 then
    .ok { map_type := mapType, default_value := defaultValue,
          description :=
            if descr.getD "" = "" then autoDescription mapType else descr.getD "" }
  else .error .valueError

/-- `packing_template.PackingTemplate`: one named RGBA assignment scheme
(packing_template.py lines 12-242).  The `channels` dict always holds the
four keys R, G, B, A in that insertion order; here they are the four
optional slots. -/
structure PackingTemplate where
  name : String
  description : String
  chR : Option ChannelMap
  chG : Option ChannelMap
  chB : Option ChannelMap
  chA : Option ChannelMap
deriving DecidableEq

/-- Write one slot of the channels dict (the effect of
`self.channels.update(channels)` for one key). -/
def setSlot (t : PackingTemplate) (key : String) (v : Option ChannelMap) :
    PackingTemplate :=
  if key = "R" then { t with chR := v }
  else if key = "G" then { t with chG := v }
  else if key = "B" then { t with chB := v }
  else if key = "A" then { t with chA := v }
  else t

/-- `PackingTemplate.__init__` (packing_template.py lines 44-95): all four
slots start at None; a provided (truthy) channels mapping is key-validated
against {R,G,B,A} (ValueError otherwise) and then merged. -/
def mkPackingTemplate (name description : String)
    (channels : Option (List (String × Option ChannelMap))) :
    Except PyError PackingTemplate :=
  let base : PackingTemplate :=
    { name := name, description := description,
      chR := none, chG := none, chB := none, chA := none }
  match channels with
  | none => .ok base
  | some cs =>
      if cs.any (fun p => ¬(p.1 = "R" ∨ p.1 = "G" ∨ p.1 = "B" ∨ p.1 = "A")) then
        .error .valueError
      else
        .ok (cs.foldl (fun acc p => setSlot acc p.1 p.2) base)

/-- `PackingTemplate.get_channel(key)` (packing_template.py lines 97-124):
KeyError for a key outside R/G/B/A, otherwise the slot (None for unused). -/
def PackingTemplate.get_channel (t : PackingTemplate) (key : String) :
    Except PyError (Option ChannelMap) :=
  if key = "R" then .ok t.chR
  else if key = "G" then .ok t.chG
  else if key = "B" then .ok t.chB
  else if key = "A" then .ok t.chA
  else .error .keyError

/-- `PackingTemplate.is_rgba()` (packing_template.py lines 156-181): true
iff slot A is assigned. -/
def PackingTemplate.is_rgba (t : PackingTemplate) : Bool :=
  t.chA.isSome

/-- One entry of the used-channels comprehension. -/
def optEntry (key : String) (o : Option ChannelMap) : List (String × ChannelMap) :=
  match o with
  | some cm => [(key, cm)]
  | none => []

/-- `PackingTemplate.get_used_channels()` (packing_template.py lines
183-204): the non-None slots in the channel dict's insertion order
R, G, B, A. -/
def PackingTemplate.get_used_channels (t : PackingTemplate) :
    List (String × ChannelMap) :=
  optEntry "R" t.chR ++ optEntry "G" t.chG ++ optEntry "B" t.chB ++ optEntry "A" t.chA

/-- Python `int(q)` for a float: truncation toward zero. -/
def pyInt (q : ℚ) : Int :=
  if q < 0 then -(Int.floor (-q)) else Int.floor q

/-- Python `textures.get(map_type)` on the textures dict
(packing_engine.py line 233).  Dict keys are unique, so first-match lookup
is dict lookup. -/
def texGet (textures : List (String × NpArray)) (k : String) : Option NpArray :=
  (textures.find? (fun p => p.1 = k)).map (·.2)

/-- The per-slot texture resolution of `pack_texture_from_template`
(packing_engine.py lines 224-254) for raw-buffer sources: an unused slot
and a used slot with no texture stay unresolved; a present ndarray is
validated and used as-is.  File-path and PIL-image sources go through the
out-of-scope image-I/O collaborator (spec section 6) and are not modelled;
every claim supplies raw buffers or no texture. -/
def resolveSlot (textures : List (String × NpArray)) (cm? : Option ChannelMap) :
    Except PyError (Option NpArray) :=
  match cm? with
  | none => .ok none
  | some cm =>
      match texGet textures cm.map_type with
      | none => .ok none
      | some arr =>
          match validate_channel_data arr none false with
          | .error e => .error e
          | .ok _ => .ok (some arr)

/-- The target resolution chosen by `pack_texture_from_template`
(packing_engine.py lines 256-272) as a pure `(width, height)` value: the
fixed 1024x1024 fallback when no texture at all was supplied, else the
componentwise maximum over the supplied textures of the used slots. -/
def ptt_target (textures : List (String × NpArray)) (t : PackingTemplate) :
    Nat × Nat :=
  let resolved := [t.chR.bind (fun cm => texGet textures cm.map_type),
                   t.chG.bind (fun cm => texGet textures cm.map_type),
                   t.chB.bind (fun cm => texGet textures cm.map_type),
                   t.chA.bind (fun cm => texGet textures cm.map_type)]
  let validTextures := resolved.filterMap id
  if validTextures.isEmpty then (1024, 1024)
  else (((validTextures.map (·.width)).foldl Nat.max 0),
        ((validTextures.map (·.height)).foldl Nat.max 0))

/-- The default-fill step of `pack_texture_from_template`
(packing_engine.py lines 274-285): a used slot still unresolved becomes a
constant buffer at target resolution with value
`int(channel_map.default_value * 255)`. -/
def fillSlot (target : Nat × Nat) (arr? : Option NpArray) (cm? : Option ChannelMap) :
    Option NpArray :=
  match arr? with
  | some arr => some arr
  | none => cm?.map (fun cm => constArr target.2 target.1 (pyInt (cm.default_value * 255)))

/-- The final composition step of `pack_texture_from_template`
(packing_engine.py lines 274-293): fill the still-unresolved used slots
with defaults at the target resolution and delegate to `pack_channels`. -/
def pttFinish (t : PackingTemplate) (ra ga ba aa : Option NpArray)
    (target : Nat × Nat) : Except PyError Stacked :=
  pack_channels (fillSlot target ra t.chR) (fillSlot target ga t.chG)
    (fillSlot target ba t.chB) (fillSlot target aa t.chA)

/-- `packing_engine.pack_texture_from_template(textures, template)`
(packing_engine.py lines 175-295), for texture dicts of raw buffers; the
isinstance(template, PackingTemplate) guard holds by typing. -/
def pack_texture_from_template (textures : List (String × NpArray))
    (t : PackingTemplate) : Except PyError Stacked :=
  match resolveSlot textures t.chR with
  | .error e => .error e
  | .ok ra =>
      match resolveSlot textures t.chG with
      | .error e => .error e
      | .ok ga =>
          match resolveSlot textures t.chB with
          | .error e => .error e
          | .ok ba =>
              match resolveSlot textures t.chA with
              | .error e => .error e
              | .ok aa =>
                  let validTextures := [ra, ga, ba, aa].filterMap id
                  if validTextures.isEmpty then
                    pttFinish t ra ga ba aa (1024, 1024)
                  else
                    match validateAll validTextures with
                    | .error e => .error e
                    | .ok _ =>
                        pttFinish t ra ga ba aa
                          (((validTextures.map (·.width)).foldl Nat.max 0),
                           ((validTextures.map (·.height)).foldl Nat.max 0))

/-- `packing_engine.create_default_channel(size, default_value)`
(packing_engine.py lines 298-327). -/
def create_default_channel (size : Nat × Nat) (defaultValue : ℚ) :
    Except PyError NpArray :=
  if 0 ≤ defaultValue ∧ defaultValue ≤ 1 then
    .ok (constArr size.2 size.1 (pyInt (defaultValue * 255)))
  else .error .valueError

/-- The PIL image modes reachable in the unpacking engine's domain:
single-channel grayscale (L), grayscale with alpha (LA), and the packed
modes RGB and RGBA.  (Other PIL modes only differ in which conversion the
engine applies; no claim depends on them.) -/
inductive PILMode where
  | L
  | LA
  | RGB
  | RGBA
deriving DecidableEq, Repr

/-- A decoded PIL image: a mode plus per-band samples in 0..255.
`px b i j` is band `b` (for RGB/RGBA: 0=R, 1=G, 2=B, 3=A; for L: band 0;
for LA: band 0 = luminance, band 1 = alpha) at row `i`, column `j`. -/
structure PILImage where
  mode : PILMode
  height : Nat
  width : Nat
  px : Nat → Nat → Nat → Nat

/-- Whether the image carries an alpha plane: true exactly for the modes
whose band set includes A (RGBA and LA). -/
def hasAlphaPlane (img : PILImage) : Bool :=
  img.mode = .RGBA ∨ img.mode = .LA

/-- `image.convert("RGB")` for the modes of this model: L and LA replicate
the luminance band over R, G, B (LA drops its alpha); RGB and RGBA are
already indexable as RGB arrays and are returned unchanged (the engine
never converts those). -/
def convertToRGB (img : PILImage) : PILImage :=
  match img.mode with
  | .L => ⟨.RGB, img.height, img.width, fun _ i j => img.px 0 i j⟩
  | .LA => ⟨.RGB, img.height, img.width, fun _ i j => img.px 0 i j⟩
  | _ => img

/-- The `_CHANNEL_INDEX` table (unpacking_engine.py lines 19-24). -/
def channelIndex (channel : String) : Nat :=
  if channel = "R" then 0
  else if channel = "G" then 1
  else if channel = "B" then 2
  else 3

/-- The conversion-and-slice tail of `extract_channel` (unpacking_engine.py
lines 70-83): convert L (and any other non-RGB/RGBA mode) to RGB, then
slice the requested plane out of the image array. -/
def extractVal (img : PILImage) (channel : String) : NpArray :=
  let img2 :=
    if img.mode = .L then convertToRGB img
    else if img.mode ≠ .RGB ∧ img.mode ≠ .RGBA then convertToRGB img
    else img
  ⟨img2.height, img2.width,
   fun i j => Int.ofNat (img2.px (channelIndex channel) i j)⟩

/-- `unpacking_engine.extract_channel(image, channel)` (unpacking_engine.py
lines 27-83): reject a key outside R/G/B/A (ValueError, the spec's
InputError kind); reject channel A whenever the mode is not RGBA
(ValueError "Cannot extract alpha", the spec's InvalidStateError kind) -
this check runs before any conversion; then convert and slice
(`extractVal`).  The isinstance(image, Image) guard holds by typing. -/
def extract_channel (img : PILImage) (channel : String) : Except PyError NpArray :=
  if ¬(channel = "R" ∨ channel = "G" ∨ channel = "B" ∨ channel = "A") then
    .error .invalidChannelKey
  else if channel = "A" ∧ img.mode ≠ .RGBA then
    .error .cannotExtractAlpha
  else
    .ok (extractVal img channel)

/-- Python dict lookup `d.get(k)` on a string-keyed dict represented as an
association list with unique keys. -/
def pyDictGet {α : Type} (d : List (String × α)) (k : String) : Option α :=
  (d.find? (fun p => p.1 = k)).map (·.2)

/-- Python dict write `d[k] = v`: replace in place when the key exists,
else append (insertion order preserved). -/
def pyDictSet {α : Type} (d : List (String × α)) (k : String) (v : α) :
    List (String × α) :=
  if d.any (fun p => p.1 = k) then
    d.map (fun p => if p.1 = k then (k, v) else p)
  else d ++ [(k, v)]

/-- The channel loop of `unpack_texture` (unpacking_engine.py lines
134-144): walk the used channels in R, G, B, A order, silently skipping
slot A when the image is not RGBA, extracting every other slot and storing
it under its map_type. -/
def unpackLoop (img : PILImage) :
    List (String × ChannelMap) → List (String × NpArray) →
    Except PyError (List (String × NpArray))
  | [], acc => .ok acc
  | (key, cm) :: rest, acc =>
      if key = "A" ∧ img.mode ≠ .RGBA then unpackLoop img rest acc
      else
        match extract_channel img key with
        | .error e => .error e
        | .ok e => unpackLoop img rest (pyDictSet acc cm.map_type e)

/-- The result of the template-driven phase of `unpack_texture` (before
the alpha auto-extraction post-step). -/
def unpackBase (img : PILImage) (t : PackingTemplate) :
    Except PyError (List (String × NpArray)) :=
  unpackLoop img t.get_used_channels []

/-- `unpacking_engine.unpack_texture(image, template)` (unpacking_engine.py
lines 86-166): the template-driven extraction, then, when the image is
RGBA and the template leaves slot A unused, the best-effort auto-extraction
of the alpha plane under the synthetic key "alpha" - its try/except keeps
any failure from escaping.  The isinstance guards hold by typing. -/
def unpack_texture (img : PILImage) (t : PackingTemplate) :
    Except PyError (List (String × NpArray)) :=
  match unpackBase img t with
  | .error e => .error e
  | .ok base =>
      if img.mode = .RGBA ∧ ¬t.chA.isSome then
        match extract_channel img "A" with
        | .ok alphaData => .ok (pyDictSet base "alpha" alphaData)
        | .error _ => .ok base
      else .ok base

/-- `Image.fromarray(stacked, mode)` (packing_engine.py line 170) for a
uint8-valid stack: an RGB image for 3 planes, RGBA for 4, with the stack's
samples as band values.  (Out-of-range samples would make the real
`fromarray` fail or garble; every theorem that builds an image first
establishes 0..255 samples.) -/
def Stacked.toImage (s : Stacked) : PILImage :=
  ⟨if s.nch = 4 then .RGBA else .RGB, s.height, s.width,
   fun b i j => (s.data b i j).toNat⟩

/-- The alpha plane of an image, as `extract_channel(image, "A")` returns
it for an RGBA image. -/
def alphaPlane (img : PILImage) : NpArray :=
  ⟨img.height, img.width, fun i j => Int.ofNat (img.px 3 i j)⟩

/-- The plane of slot `k` of an RGB/RGBA image, as `extract_channel`
returns it. -/
def planeArr (img : PILImage) (k : String) : NpArray :=
  ⟨img.height, img.width, fun i j => Int.ofNat (img.px (channelIndex k) i j)⟩

/-- `validator.check_resolution_match(images)` (validator.py lines 24-65). -/
def check_resolution_match (images : List PILImage) : Except PyError Bool :=
  match images with
  | [] => .error .valueError
  | ref :: rest =>
      .ok (rest.all (fun img => img.width = ref.width ∧ img.height = ref.height))

/-- `validator.get_max_resolution(images)` (validator.py lines 68-106):
ValueError on an empty list, else the pair of the maximum width and the
maximum height, each taken independently. -/
def get_max_resolution (images : List PILImage) : Except PyError (Nat × Nat) :=
  if images.isEmpty then .error .valueError
  else .ok (((images.map (·.width)).foldl Nat.max 0),
            ((images.map (·.height)).foldl Nat.max 0))

/-- A parsed JSON document (numbers as rationals, matching the exact
round-trip of Python floats through `json.dump`/`json.load`). -/
inductive Json where
  | jnull
  | jbool (b : Bool)
  | jnum (q : ℚ)
  | jstr (s : String)
  | jarr (xs : List Json)
  | jobj (kvs : List (String × Json))

/-- Read a JSON value as a Python string where the loader stores it
verbatim (`data["name"]`, `channel_info["type"]`).  The Python loader does
not type-check these fields; a non-string value would load as a non-string
attribute, which the string-typed model cannot represent and no claim
exercises. -/
def jsonToStr (j : Json) : String :=
  match j with
  | .jstr s => s
  | _ => ""

/-- Read an optional JSON value as the loader's optional description
(`channel_info.get("description")`): an absent key or a null loads as
None; strings load verbatim. -/
def jsonToStrOpt (j : Option Json) : Option String :=
  match j with
  | some (.jstr s) => some s
  | _ => none

/-- Python `float(x)` on a JSON-decoded value (template_loader.py line
115): numbers pass through, booleans coerce to 1.0/0.0, anything else
(null, object, array) raises TypeError.  (A numeric string would parse in
Python; no claim supplies string defaults, so they are grouped with the
failures here.) -/
def pyFloat? (j : Json) : Option ℚ :=
  match j with
  | .jnum q => some q
  | .jbool b => some (if b then 1 else 0)
  | _ => none

/-- The body of the channel-entry validation of `load_template`
(template_loader.py lines 91-122) for one entry: null stays null; a
non-object entry, a missing `type` or `default`, an un-floatable default,
and an out-of-range default (the ValueError of the ChannelMap constructor)
are all TemplateValidationError. -/
def parseChannelInfo (info : Json) : Except PyError (Option ChannelMap) :=
  match info with
  | .jnull => .ok none
  | .jobj ikvs =>
      match pyDictGet ikvs "type" with
      | none => .error .templateValidationError
      | some tJ =>
          match pyDictGet ikvs "default" with
          | none => .error .templateValidationError
          | some dJ =>
              match pyFloat? dJ with
              | none => .error .templateValidationError
              | some q =>
                  match mkChannelMap (jsonToStr tJ) q
                      (jsonToStrOpt (pyDictGet ikvs "description")) with
                  | .ok cm => .ok (some cm)
                  | .error _ => .error .templateValidationError
  | _ => .error .templateValidationError

/-- The channels loop of `load_template` (template_loader.py lines 83-122):
reject a key outside R/G/B/A, validate each entry, and collect the parsed
slots in document order. -/
def parseChannels : List (String × Json) →
    Except PyError (List (String × Option ChannelMap))
  | [] => .ok []
  | (k, info) :: rest =>
      if ¬(k = "R" ∨ k = "G" ∨ k = "B" ∨ k = "A") then
        .error .templateValidationError
      else
        match parseChannelInfo info with
        | .error e => .error e
        | .ok cm? =>
            match parseChannels rest with
            | .error e => .error e
            | .ok others => .ok ((k, cm?) :: others)

/-- `template_loader.load_template(path)` (template_loader.py lines
23-136) after the file has been read: the input is the outcome of
`json.load` (`none` for a JSON syntax error).  A syntax error is wrapped
into TemplateValidationError (lines 51-57); a non-object document, missing
`name` or `description`, a non-object `channels`, and every channel-level
violation are TemplateValidationError; finally the PackingTemplate
constructor runs with its errors wrapped into TemplateValidationError too.
The file-existence check (FileNotFoundError) precedes all of this and is
out of the document model. -/
def load_template (parsed : Option Json) : Except PyError PackingTemplate :=
  match parsed with
  | none => .error .templateValidationError
  | some data =>
      match data with
      | .jobj kvs =>
          match pyDictGet kvs "name" with
          | none => .error .templateValidationError
          | some nameJ =>
              match pyDictGet kvs "description" with
              | none => .error .templateValidationError
              | some descrJ =>
                  match (pyDictGet kvs "channels").getD (.jobj []) with
                  | .jobj ckvs =>
                      match parseChannels ckvs with
                      | .error e => .error e
                      | .ok channels =>
                          match mkPackingTemplate (jsonToStr nameJ) (jsonToStr descrJ)
                              (if channels.isEmpty then none else some channels) with
                          | .ok t => .ok t
                          | .error _ => .error .templateValidationError
                  | _ => .error .templateValidationError
      | _ => .error .templateValidationError

/-- The channel serialization of `save_template` (template_loader.py lines
170-183): `type` and `default`, plus `description` only when it differs
from the auto-generated one. -/
def saveChannel (cm : ChannelMap) : Json :=
  .jobj ([("type", .jstr cm.map_type), ("default", .jnum cm.default_value)] ++
    (if cm.description = autoDescription cm.map_type then []
     else [("description", .jstr cm.description)]))

/-- `template_loader.save_template(template, path)` (template_loader.py
lines 139-196) as the JSON document it writes: name, description, and the
used slots in R, G, B, A order (None slots omitted entirely).  The
pretty-printing, trailing newline and file I/O do not change the parsed
document. -/
def save_template (t : PackingTemplate) : Json :=
  .jobj [("name", .jstr t.name), ("description", .jstr t.description),
         ("channels", .jobj
           (([("R", t.chR), ("G", t.chG), ("B", t.chB), ("A", t.chA)]).filterMap
             (fun p => p.2.map (fun cm => (p.1, saveChannel cm)))))]

/-- A ChannelMap value reachable from the Python constructor: default in
0..1 and a description that the `or` fallback could have produced (an empty
description only when the auto-generated one is itself empty). -/
@[reducible]
def ChannelMap.WFcm (cm : ChannelMap) : Prop :=
  0 ≤ cm.default_value ∧ cm.default_value ≤ 1 ∧
    (cm.description = "" → autoDescription cm.map_type = "")

/-- A PackingTemplate whose used slots all hold constructor-reachable
ChannelMaps. -/
@[reducible]
def PackingTemplate.WFt (t : PackingTemplate) : Prop :=
  (∀ cm ∈ t.chR, cm.WFcm) ∧ (∀ cm ∈ t.chG, cm.WFcm) ∧
    (∀ cm ∈ t.chB, cm.WFcm) ∧ (∀ cm ∈ t.chA, cm.WFcm)

/-- The buffer supplied for slot `k` when calling
`pack_channels(r, g, b, a)` with one buffer per slot. -/
def slotBuf (rb gb bb ab : Option NpArray) (k : String) : Option NpArray :=
  if k = "R" then rb
  else if k = "G" then gb
  else if k = "B" then bb
  else if k = "A" then ab
  else none

/-- The keys of a dict. -/
def dictKeys {α : Type} (d : List (String × α)) : List String :=
  d.map (·.1)

/-- Writing a whole pair list into a dict in order, `d[k] = v` per entry. -/
def foldDict {α : Type} (acc : List (String × α)) (l : List (String × α)) :
    List (String × α) :=
  l.foldl (fun d p => pyDictSet d p.1 p.2) acc

/-- The value of the last entry of `l` carrying key `k`, if any. -/
def lastVal? {α : Type} (l : List (String × α)) (k : String) : Option α :=
  ((l.filter (fun p => p.1 = k)).getLast?).map (·.2)

/-- The predefined ChannelMap `AMBIENT_OCCLUSION` (channel_map.py lines
98-102). -/
def ormAO : ChannelMap :=
  ⟨"ambient_occlusion", 1, "Ambient Occlusion"⟩

/-- The predefined ChannelMap `ROUGHNESS` (channel_map.py lines 104-108). -/
def ormRough : ChannelMap :=
  ⟨"roughness", 1/2, "Roughness"⟩

/-- The predefined ChannelMap `METALLIC` (channel_map.py lines 110-114). -/
def ormMetal : ChannelMap :=
  ⟨"metallic", 0, "Metallic"⟩

/-- The standard ORM template (R=ambient occlusion 1.0, G=roughness 0.5,
B=metallic 0.0, A unused), as in the repository's orm template and test
fixtures. -/
def ormTemplate : PackingTemplate :=
  ⟨"ORM", "Occlusion-Roughness-Metallic", some ormAO, some ormRough, some ormMetal, none⟩

/-!  Lemmas.  First a toolbox about folded maxima, dict updates and the
engine phases; then one theorem (plus witness or counterexample) per
claim. -/

theorem foldl_max_acc_le (l : List Nat) (a : Nat) : a ≤ l.foldl Nat.max a := by
  induction l generalizing a with
  | nil => exact le_refl a
  | cons y ys ih => exact le_trans (Nat.le_max_left a y) (ih (Nat.max a y))

theorem le_foldl_max (l : List Nat) (a : Nat) : ∀ x ∈ l, x ≤ l.foldl Nat.max a := by
  induction l generalizing a with
  | nil => intro x hx; cases hx
  | cons y ys ih =>
      intro x hx
      rw [List.foldl_cons]
      rcases List.mem_cons.mp hx with rfl | hx
      · exact le_trans (Nat.le_max_right a x) (foldl_max_acc_le ys (Nat.max a x))
      · exact ih (Nat.max a y) x hx

theorem foldl_max_le (l : List Nat) (a m : Nat) (ha : a ≤ m)
    (h : ∀ x ∈ l, x ≤ m) : l.foldl Nat.max a ≤ m := by
  induction l generalizing a with
  | nil => exact ha
  | cons y ys ih =>
      exact ih (Nat.max a y) (Nat.max_le.mpr ⟨ha, h y (List.mem_cons_self y ys)⟩)
        (fun x hx => h x (List.mem_cons_of_mem y hx))

theorem foldl_max_eq_or_mem (l : List Nat) (a : Nat) :
    l.foldl Nat.max a = a ∨ l.foldl Nat.max a ∈ l := by
  induction l generalizing a with
  | nil => exact Or.inl rfl
  | cons y ys ih =>
      rcases ih (Nat.max a y) with h | h
      · have hm : Nat.max a y = a ∨ Nat.max a y = y := by
          rcases Nat.le_total y a with hle | hle
          · exact Or.inl (Nat.max_eq_left hle)
          · exact Or.inr (Nat.max_eq_right hle)
        rcases hm with hm | hm
        · exact Or.inl (by rw [List.foldl_cons, h, hm])
        · exact Or.inr (by rw [List.foldl_cons, h, hm]; exact List.mem_cons_self y ys)
      · exact Or.inr (List.mem_cons_of_mem y h)

theorem foldl_max_mem (l : List Nat) (hl : l ≠ []) : l.foldl Nat.max 0 ∈ l := by
  rcases foldl_max_eq_or_mem l 0 with h | h
  · rcases l with _ | ⟨y, ys⟩
    · exact absurd rfl hl
    · have hy : y ≤ (y :: ys).foldl Nat.max 0 :=
        le_foldl_max _ _ y (List.mem_cons_self y ys)
      rw [h] at hy
      have : y = 0 := Nat.le_zero.mp hy
      rw [h, ← this]
      exact List.mem_cons_self y ys
  · exact h

theorem foldl_max_const (l : List Nat) (h : Nat) (hl : l ≠ [])
    (hall : ∀ x ∈ l, x = h) : l.foldl Nat.max 0 = h := by
  have hm := foldl_max_mem l hl
  exact hall _ hm

theorem find?_map_overwrite {α : Type} (d : List (String × α)) (k k' : String) (v : α) :
    (d.map (fun p => if p.1 = k then (k, v) else p)).find? (fun p => p.1 = k') =
      if k' = k then ((d.find? (fun p => p.1 = k)).map (fun _ => (k, v)))
      else d.find? (fun p => p.1 = k') := by
  induction d with
  | nil => by_cases hk : k' = k <;> simp [hk]
  | cons p d ih =>
      by_cases hpk : p.1 = k
      · by_cases hk : k' = k
        · simp [hpk, hk, List.find?_cons]
        · simp only [List.map_cons, if_pos hpk, List.find?_cons]
          have : ¬((k, v).1 = k') := by simp; exact fun h => hk h.symm
          have hpk' : ¬(p.1 = k') := by rw [hpk]; exact fun h => hk h.symm
          simp [this, hpk', ih, hk]
      · by_cases hk : k' = k
        · subst hk
          simp only [List.map_cons, if_neg hpk, List.find?_cons]
          simp [hpk, ih]
        · by_cases hpk' : p.1 = k'
          · simp [List.find?_cons, hpk, hpk', hk]
          · simp [List.find?_cons, hpk, hpk', ih, hk]

theorem any_key_iff_find {α : Type} (d : List (String × α)) (k : String) :
    d.any (fun p => p.1 = k) = (d.find? (fun p => p.1 = k)).isSome := by
  induction d with
  | nil => rfl
  | cons p d ih =>
      by_cases hp : p.1 = k <;> simp [List.any_cons, List.find?_cons, hp, ih]

theorem pyDictGet_set {α : Type} (d : List (String × α)) (k k' : String) (v : α) :
    pyDictGet (pyDictSet d k v) k' = if k' = k then some v else pyDictGet d k' := by
  unfold pyDictSet pyDictGet
  by_cases hany : d.any (fun p => p.1 = k)
  · rw [if_pos hany, find?_map_overwrite]
    by_cases hk : k' = k
    · rw [if_pos hk, if_pos hk]
      rw [any_key_iff_find] at hany
      rcases Option.isSome_iff_exists.mp hany with ⟨p, hp⟩
      rw [hp]; rfl
    · rw [if_neg hk, if_neg hk]
  · rw [if_neg hany, List.find?_append]
    by_cases hk : k' = k
    · subst hk
      have hnone : d.find? (fun p => p.1 = k') = none := by
        rw [any_key_iff_find] at hany
        exact Option.not_isSome_iff_eq_none.mp hany
      simp [hnone]
    · have : ¬((k, v).1 = k') := by simp; exact fun h => hk h.symm
      simp only [List.find?_cons, this]
      simp [hk, List.find?_nil]

theorem dictKeys_set {α : Type} (d : List (String × α)) (k : String) (v : α) :
    dictKeys (pyDictSet d k v) =
      if d.any (fun p => p.1 = k) then dictKeys d else dictKeys d ++ [k] := by
  unfold pyDictSet dictKeys
  by_cases hany : d.any (fun p => p.1 = k)
  · rw [if_pos hany, if_pos hany, List.map_map]
    apply List.map_congr_left
    intro p _
    by_cases hp : p.1 = k <;> simp [hp]
  · rw [if_neg hany, if_neg hany, List.map_append]
    rfl

theorem mem_dictKeys_set {α : Type} (d : List (String × α)) (k a : String) (v : α) :
    a ∈ dictKeys (pyDictSet d k v) ↔ a ∈ dictKeys d ∨ a = k := by
  rw [dictKeys_set]
  by_cases hany : d.any (fun p => p.1 = k)
  · rw [if_pos hany]
    constructor
    · exact Or.inl
    · rintro (h | rfl)
      · exact h
      · rcases List.any_eq_true.mp hany with ⟨p, hp, hpk⟩
        have hpa : p.1 = a := of_decide_eq_true hpk
        exact hpa ▸ List.mem_map_of_mem (·.1) hp
  · rw [if_neg hany]; simp

theorem nodup_dictKeys_set {α : Type} (d : List (String × α)) (k : String) (v : α)
    (h : (dictKeys d).Nodup) : (dictKeys (pyDictSet d k v)).Nodup := by
  rw [dictKeys_set]
  by_cases hany : d.any (fun p => p.1 = k)
  · rw [if_pos hany]; exact h
  · rw [if_neg hany]
    apply List.Nodup.append h (List.nodup_singleton k)
    intro a ha hb
    rcases List.mem_singleton.mp hb with rfl
    rcases List.mem_map.mp ha with ⟨p, hp, hpa⟩
    have : d.any (fun p => p.1 = a) = true :=
      List.any_eq_true.mpr ⟨p, hp, decide_eq_true hpa⟩
    exact hany this

theorem nodup_dictKeys_foldDict {α : Type} (l : List (String × α))
    (acc : List (String × α)) (h : (dictKeys acc).Nodup) :
    (dictKeys (foldDict acc l)).Nodup := by
  induction l generalizing acc with
  | nil => exact h
  | cons p l ih => exact ih (pyDictSet acc p.1 p.2) (nodup_dictKeys_set acc p.1 p.2 h)

theorem mem_dictKeys_foldDict {α : Type} (l : List (String × α))
    (acc : List (String × α)) (a : String) :
    a ∈ dictKeys (foldDict acc l) ↔ a ∈ dictKeys acc ∨ a ∈ l.map (·.1) := by
  induction l generalizing acc with
  | nil => simp [foldDict]
  | cons p l ih =>
      show a ∈ dictKeys (foldDict (pyDictSet acc p.1 p.2) l) ↔ _
      rw [ih, mem_dictKeys_set]
      constructor
      · rintro ((h | rfl) | h)
        · exact Or.inl h
        · exact Or.inr (by simp)
        · exact Or.inr (List.mem_cons_of_mem _ h)
      · rintro (h | h)
        · exact Or.inl (Or.inl h)
        · rcases List.mem_cons.mp h with rfl | h
          · exact Or.inl (Or.inr rfl)
          · exact Or.inr h

theorem pyDictGet_foldDict {α : Type} (l : List (String × α))
    (acc : List (String × α)) (k : String) :
    pyDictGet (foldDict acc l) k = (lastVal? l k).or (pyDictGet acc k) := by
  induction l generalizing acc with
  | nil => simp [foldDict, lastVal?]
  | cons p l ih =>
      show pyDictGet (foldDict (pyDictSet acc p.1 p.2) l) k = _
      rw [ih, pyDictGet_set]
      by_cases hpk : p.1 = k
      · have hkp : k = p.1 := hpk.symm
        rw [if_pos hkp]
        unfold lastVal?
        rw [List.filter_cons_of_pos (by simpa using hpk)]
        rcases hfl : l.filter (fun q => q.1 = k) with _ | ⟨z, zs⟩
        · rw [hfl]
          simp
        · rw [hfl, List.getLast?_cons_cons]
          have hs : (z :: zs).getLast?.isSome := List.getLast?_isSome.mpr (by simp)
          rcases hq : (z :: zs).getLast? with _ | q
          · rw [hq] at hs; simp at hs
          · simp
      · rw [if_neg (fun h => hpk h.symm)]
        unfold lastVal?
        rw [List.filter_cons_of_neg (by simpa using hpk)]

theorem filter_key_singleton {α : Type} (l : List (String × α)) (k : String) (v : α)
    (hnd : (l.map (·.1)).Nodup) (hmem : (k, v) ∈ l) :
    l.filter (fun p => p.1 = k) = [(k, v)] := by
  induction l with
  | nil => cases hmem
  | cons p l ih =>
      rw [List.map_cons, List.nodup_cons] at hnd
      rcases List.mem_cons.mp hmem with rfl | hmem
      · rw [List.filter_cons_of_pos (by simp)]
        have hnone : l.filter (fun p => p.1 = k) = [] := by
          apply List.filter_eq_nil_iff.mpr
          intro q hq
          simp only [decide_eq_true_eq]
          intro hqk
          exact hnd.1 (hqk ▸ List.mem_map_of_mem (·.1) hq)
        rw [hnone]
      · have hpk : ¬(p.1 = k) := by
          intro hpk
          exact hnd.1 (by
            have : k ∈ l.map (·.1) := List.mem_map_of_mem (·.1) hmem
            exact hpk ▸ this)
        rw [List.filter_cons_of_neg (by simpa using hpk)]
        exact ih hnd.2 hmem

theorem lastVal?_eq_of_nodup {α : Type} (l : List (String × α)) (k : String) (v : α)
    (hnd : (l.map (·.1)).Nodup) (hmem : (k, v) ∈ l) :
    lastVal? l k = some v := by
  unfold lastVal?
  rw [filter_key_singleton l k v hnd hmem]
  rfl

theorem lastVal?_isSome_of_mem {α : Type} (l : List (String × α)) (k : String)
    (hmem : k ∈ l.map (·.1)) : (lastVal? l k).isSome := by
  unfold lastVal?
  rcases List.mem_map.mp hmem with ⟨p, hp, hpk⟩
  have hne : l.filter (fun p => p.1 = k) ≠ [] := by
    intro hnil
    have : p ∈ l.filter (fun p => p.1 = k) :=
      List.mem_filter.mpr ⟨hp, by simpa using hpk⟩
    rw [hnil] at this
    cases this
  rcases hlast : (l.filter (fun p => p.1 = k)).getLast? with _ | q
  · exact absurd (List.getLast?_isSome.mpr hne) (by rw [hlast]; simp)
  · rw [hlast]
    rfl

theorem lastVal?_eq_none {α : Type} (l : List (String × α)) (k : String)
    (h : ∀ p ∈ l, p.1 ≠ k) : lastVal? l k = none := by
  unfold lastVal?
  have : l.filter (fun p => p.1 = k) = [] :=
    List.filter_eq_nil_iff.mpr (fun p hp => by simpa using h p hp)
  rw [this]
  rfl

theorem length_foldDict_nil {α : Type} (l : List (String × α)) :
    (foldDict ([] : List (String × α)) l).length = ((l.map (·.1)).toFinset).card := by
  have hnd : (dictKeys (foldDict ([] : List (String × α)) l)).Nodup :=
    nodup_dictKeys_foldDict l [] (by simp [dictKeys])
  have hset : (dictKeys (foldDict ([] : List (String × α)) l)).toFinset =
      (l.map (·.1)).toFinset := by
    apply Finset.ext
    intro a
    rw [List.mem_toFinset, List.mem_toFinset, mem_dictKeys_foldDict]
    simp [dictKeys]
  have hlen : (foldDict ([] : List (String × α)) l).length =
      (dictKeys (foldDict ([] : List (String × α)) l)).length := by
    unfold dictKeys
    rw [List.length_map]
  rw [hlen, ← List.toFinset_card_of_nodup hnd, hset]

theorem toFinset_card_lt_of_not_nodup (l : List String) (h : ¬l.Nodup) :
    l.toFinset.card < l.length := by
  apply lt_of_le_of_ne (List.toFinset_card_le l)
  intro heq
  apply h
  have hm : (l : Multiset String).toFinset.card = Multiset.card (l : Multiset String) := by
    simpa using heq
  exact Multiset.coe_nodup.mp (Multiset.toFinset_card_eq_card_iff_nodup.mp hm)

theorem validate_channel_data_ok (arr : NpArray) (h1 : arr.height ≠ 0)
    (h2 : arr.width ≠ 0) : validate_channel_data arr none false = .ok () := by
  unfold validate_channel_data
  rw [if_neg]
  intro hc
  exact (Nat.mul_ne_zero h1 h2) hc.1

theorem validateAll_ok (l : List NpArray)
    (h : ∀ arr ∈ l, arr.height ≠ 0 ∧ arr.width ≠ 0) : validateAll l = .ok () := by
  induction l with
  | nil => rfl
  | cons arr rest ih =>
      have harr := h arr (List.mem_cons_self arr rest)
      unfold validateAll
      rw [validate_channel_data_ok arr harr.1 harr.2]
      exact ih (fun x hx => h x (List.mem_cons_of_mem arr hx))

theorem normalizeList_ok (tw th : Nat) (l : List NpArray)
    (h : ∀ arr ∈ l, arr.height ≠ 0 ∧ arr.width ≠ 0) :
    normalizeList tw th l = .ok (l.map (packNf tw th)) := by
  induction l with
  | nil => rfl
  | cons arr rest ih =>
      have harr := h arr (List.mem_cons_self arr rest)
      unfold normalizeList
      rw [validate_channel_data_ok arr harr.1 harr.2]
      rw [ih (fun x hx => h x (List.mem_cons_of_mem arr hx))]
      rfl

theorem normalize_resolution_ok (tw th : Nat) (l : List NpArray) (hl : l ≠ [])
    (htw : tw ≠ 0) (hth : th ≠ 0)
    (h : ∀ arr ∈ l, arr.height ≠ 0 ∧ arr.width ≠ 0) :
    normalize_resolution l (tw, th) = .ok (l.map (packNf tw th)) := by
  unfold normalize_resolution
  rw [if_neg (by simpa [List.isEmpty_iff] using hl)]
  rw [if_neg (by simp [htw, hth])]
  exact normalizeList_ok tw th l h

theorem packProvided_eq (r g b a : Option NpArray) :
    packProvided r g b a = [r, g, b, a].filterMap id := by
  cases r <;> cases g <;> cases b <;> cases a <;> rfl

theorem mem_packProvided (r g b a : Option NpArray) (arr : NpArray) :
    arr ∈ packProvided r g b a ↔
      r = some arr ∨ g = some arr ∨ b = some arr ∨ a = some arr := by
  rw [packProvided_eq]
  simp [List.mem_filterMap]
  constructor
  · rintro (h | h | h | h) <;> simp [h]
  · rintro (h | h | h | h) <;> simp [h]

theorem packValidChannels_isEmpty_iff (r g b a : Option NpArray) :
    (packValidChannels r g b a).isEmpty = true ↔
      r = none ∧ g = none ∧ b = none ∧ a = none := by
  cases r <;> cases g <;> cases b <;> cases a <;> simp [packValidChannels]

theorem packProvided_ne_nil (r g b a : Option NpArray)
    (hne : ¬(r = none ∧ g = none ∧ b = none ∧ a = none)) :
    packProvided r g b a ≠ [] := by
  intro hnil
  apply hne
  rcases r with _ | ra
  · rcases g with _ | ga
    · rcases b with _ | ba
      · rcases a with _ | aa
        · exact ⟨rfl, rfl, rfl, rfl⟩
        · rw [packProvided_eq] at hnil; simp at hnil
      · rw [packProvided_eq] at hnil; simp at hnil
    · rw [packProvided_eq] at hnil; simp at hnil
  · rw [packProvided_eq] at hnil; simp at hnil

theorem packMax_ne_zero (r g b a : Option NpArray)
    (hne : ¬(r = none ∧ g = none ∧ b = none ∧ a = none))
    (hnz : ∀ arr ∈ packProvided r g b a, arr.height ≠ 0 ∧ arr.width ≠ 0) :
    packMaxH r g b a ≠ 0 ∧ packMaxW r g b a ≠ 0 := by
  have hpne := packProvided_ne_nil r g b a hne
  rcases hx : packProvided r g b a with _ | ⟨x, xs⟩
  · exact absurd hx hpne
  · have hxm : x ∈ packProvided r g b a := by rw [hx]; exact List.mem_cons_self x xs
    have hx2 := hnz x hxm
    constructor
    · intro h0
      have hle : x.height ≤ packMaxH r g b a :=
        le_foldl_max _ 0 x.height (List.mem_map_of_mem (·.height) hxm)
      rw [h0] at hle
      exact hx2.1 (Nat.le_zero.mp hle)
    · intro h0
      have hle : x.width ≤ packMaxW r g b a :=
        le_foldl_max _ 0 x.width (List.mem_map_of_mem (·.width) hxm)
      rw [h0] at hle
      exact hx2.2 (Nat.le_zero.mp hle)

theorem pack_channels_eq (r g b a : Option NpArray)
    (hne : ¬(r = none ∧ g = none ∧ b = none ∧ a = none))
    (hnz : ∀ arr ∈ packProvided r g b a, arr.height ≠ 0 ∧ arr.width ≠ 0) :
    pack_channels r g b a =
      .ok (packAssemble (packMaxH r g b a) (packMaxW r g b a) r g b a
        ((packProvided r g b a).map
          (packNf (packMaxW r g b a) (packMaxH r g b a)))) := by
  have hmax := packMax_ne_zero r g b a hne hnz
  have hemp : (packValidChannels r g b a).isEmpty = false := by
    rcases Bool.eq_false_or_eq_true (packValidChannels r g b a).isEmpty with h | h
    · exact absurd ((packValidChannels_isEmpty_iff r g b a).mp h) hne
    · exact h
  unfold pack_channels
  rw [hemp]
  rw [validateAll_ok _ hnz]
  rw [normalize_resolution_ok _ _ _ (packProvided_ne_nil r g b a hne) hmax.2 hmax.1 hnz]
  rfl

theorem packAssemble_height (mh mw : Nat) (r g b a : Option NpArray)
    (norm : List NpArray) : (packAssemble mh mw r g b a norm).height = mh := rfl

theorem packAssemble_width (mh mw : Nat) (r g b a : Option NpArray)
    (norm : List NpArray) : (packAssemble mh mw r g b a norm).width = mw := rfl

theorem packAssemble_nch (mh mw : Nat) (r g b a : Option NpArray)
    (nf : NpArray → NpArray) :
    (packAssemble mh mw r g b a ((packProvided r g b a).map nf)).nch =
      if a.isSome then 4 else 3 := by
  cases r <;> cases g <;> cases b <;> cases a <;> rfl

theorem packAssemble_data_R (mh mw : Nat) (r g b a : Option NpArray)
    (nf : NpArray → NpArray) (arr : NpArray) (hr : r = some arr) (i j : Nat) :
    (packAssemble mh mw r g b a ((packProvided r g b a).map nf)).data 0 i j =
      (nf arr).data i j := by
  subst hr
  cases g <;> cases b <;> cases a <;> rfl

theorem packAssemble_data_G (mh mw : Nat) (r g b a : Option NpArray)
    (nf : NpArray → NpArray) (arr : NpArray) (hg : g = some arr) (i j : Nat) :
    (packAssemble mh mw r g b a ((packProvided r g b a).map nf)).data 1 i j =
      (nf arr).data i j := by
  subst hg
  cases r <;> cases b <;> cases a <;> rfl

theorem packAssemble_data_B (mh mw : Nat) (r g b a : Option NpArray)
    (nf : NpArray → NpArray) (arr : NpArray) (hb : b = some arr) (i j : Nat) :
    (packAssemble mh mw r g b a ((packProvided r g b a).map nf)).data 2 i j =
      (nf arr).data i j := by
  subst hb
  cases r <;> cases g <;> cases a <;> rfl

theorem packAssemble_data_A (mh mw : Nat) (r g b a : Option NpArray)
    (nf : NpArray → NpArray) (arr : NpArray) (ha : a = some arr) (i j : Nat) :
    (packAssemble mh mw r g b a ((packProvided r g b a).map nf)).data 3 i j =
      (nf arr).data i j := by
  subst ha
  cases r <;> cases g <;> cases b <;> rfl

theorem packAssemble_data_R_none (mh mw : Nat) (r g b a : Option NpArray)
    (nf : NpArray → NpArray) (hr : r = none) (i j : Nat) :
    (packAssemble mh mw r g b a ((packProvided r g b a).map nf)).data 0 i j = 0 := by
  subst hr
  cases g <;> cases b <;> cases a <;> rfl

theorem packAssemble_data_G_none (mh mw : Nat) (r g b a : Option NpArray)
    (nf : NpArray → NpArray) (hg : g = none) (i j : Nat) :
    (packAssemble mh mw r g b a ((packProvided r g b a).map nf)).data 1 i j = 0 := by
  subst hg
  cases r <;> cases b <;> cases a <;> rfl

theorem packAssemble_data_B_none (mh mw : Nat) (r g b a : Option NpArray)
    (nf : NpArray → NpArray) (hb : b = none) (i j : Nat) :
    (packAssemble mh mw r g b a ((packProvided r g b a).map nf)).data 2 i j = 0 := by
  subst hb
  cases r <;> cases g <;> cases a <;> rfl

theorem packNf_at_target (tw th : Nat) (arr : NpArray) (hw : arr.width = tw)
    (hh : arr.height = th) : packNf tw th arr = arr := by
  unfold packNf
  rw [if_pos ⟨hw, hh⟩]

theorem extract_channel_ok (img : PILImage) (k : String)
    (hk : k = "R" ∨ k = "G" ∨ k = "B" ∨ k = "A")
    (hka : k = "A" → img.mode = .RGBA) :
    extract_channel img k = .ok (extractVal img k) := by
  unfold extract_channel
  rw [if_neg (not_not_intro hk)]
  rw [if_neg (fun hc => hc.2 (hka hc.1))]

theorem extractVal_rgb (img : PILImage) (k : String)
    (hm : img.mode = .RGB ∨ img.mode = .RGBA) :
    extractVal img k = planeArr img k := by
  rcases hm with hm | hm <;> simp [extractVal, planeArr, hm]

theorem planeArr_A (img : PILImage) : planeArr img "A" = alphaPlane img := rfl

theorem unpackLoop_ok (img : PILImage) (l : List (String × ChannelMap))
    (acc : List (String × NpArray))
    (hk : ∀ p ∈ l, (p.1 = "R" ∨ p.1 = "G" ∨ p.1 = "B" ∨ p.1 = "A") ∧
      (p.1 = "A" → img.mode = .RGBA)) :
    unpackLoop img l acc =
      .ok (foldDict acc (l.map (fun p => (p.2.map_type, extractVal img p.1)))) := by
  induction l generalizing acc with
  | nil => rfl
  | cons p rest ih =>
      rcases p with ⟨key, cm⟩
      have hp := hk (key, cm) (List.mem_cons_self _ rest)
      unfold unpackLoop
      rw [if_neg (fun hc => hc.2 (hp.2 hc.1))]
      rw [extract_channel_ok img key hp.1 hp.2]
      show unpackLoop img rest (pyDictSet acc cm.map_type (extractVal img key)) = _
      rw [ih (pyDictSet acc cm.map_type (extractVal img key))
        (fun q hq => hk q (List.mem_cons_of_mem _ hq))]
      rfl

theorem unpackLoop_skip_alpha (img : PILImage) (hm : img.mode ≠ .RGBA)
    (l : List (String × ChannelMap)) (cm : ChannelMap)
    (acc : List (String × NpArray))
    (hk : ∀ p ∈ l, p.1 = "R" ∨ p.1 = "G" ∨ p.1 = "B" ∨ p.1 = "A") :
    unpackLoop img (l ++ [("A", cm)]) acc = unpackLoop img l acc := by
  induction l generalizing acc with
  | nil =>
      show unpackLoop img [("A", cm)] acc = unpackLoop img [] acc
      unfold unpackLoop
      rw [if_pos ⟨rfl, hm⟩]
      rfl
  | cons p rest ih =>
      rcases p with ⟨key, c⟩
      by_cases hcond : key = "A" ∧ img.mode ≠ .RGBA
      · show unpackLoop img ((key, c) :: (rest ++ [("A", cm)])) acc = _
        unfold unpackLoop
        rw [if_pos hcond, if_pos hcond]
        exact ih acc (fun q hq => hk q (List.mem_cons_of_mem _ hq))
      · have hkey := hk (key, c) (List.mem_cons_self _ rest)
        have hka : key = "A" → img.mode = .RGBA :=
          fun hA => absurd ⟨hA, hm⟩ hcond
        show unpackLoop img ((key, c) :: (rest ++ [("A", cm)])) acc = _
        unfold unpackLoop
        rw [if_neg hcond, if_neg hcond]
        rw [extract_channel_ok img key hkey hka]
        show unpackLoop img (rest ++ [("A", cm)])
            (pyDictSet acc c.map_type (extractVal img key)) = _
        exact ih _ (fun q hq => hk q (List.mem_cons_of_mem _ hq))

theorem mem_optEntry (key : String) (o : Option ChannelMap) (p : String × ChannelMap) :
    p ∈ optEntry key o ↔ p.1 = key ∧ o = some p.2 := by
  rcases p with ⟨k, cm⟩
  cases o with
  | none => simp [optEntry]
  | some c =>
      simp only [optEntry, List.mem_singleton, Prod.mk.injEq, Option.some.injEq]
      constructor
      · rintro ⟨h1, h2⟩; exact ⟨h1, h2.symm⟩
      · rintro ⟨h1, h2⟩; exact ⟨h1, h2.symm⟩

theorem mem_used_iff (t : PackingTemplate) (p : String × ChannelMap) :
    p ∈ t.get_used_channels ↔
      (p.1 = "R" ∧ t.chR = some p.2) ∨ (p.1 = "G" ∧ t.chG = some p.2) ∨
      (p.1 = "B" ∧ t.chB = some p.2) ∨ (p.1 = "A" ∧ t.chA = some p.2) := by
  unfold PackingTemplate.get_used_channels
  rw [List.mem_append, List.mem_append, List.mem_append]
  rw [mem_optEntry, mem_optEntry, mem_optEntry, mem_optEntry]
  tauto

theorem used_keys_valid (t : PackingTemplate) :
    ∀ p ∈ t.get_used_channels,
      p.1 = "R" ∨ p.1 = "G" ∨ p.1 = "B" ∨ p.1 = "A" := by
  intro p hp
  rcases (mem_used_iff t p).mp hp with ⟨h, _⟩ | ⟨h, _⟩ | ⟨h, _⟩ | ⟨h, _⟩
  · exact Or.inl h
  · exact Or.inr (Or.inl h)
  · exact Or.inr (Or.inr (Or.inl h))
  · exact Or.inr (Or.inr (Or.inr h))

theorem used_key_A (t : PackingTemplate) (p : String × ChannelMap)
    (hp : p ∈ t.get_used_channels) (hA : p.1 = "A") : t.chA = some p.2 := by
  rcases (mem_used_iff t p).mp hp with ⟨h, _⟩ | ⟨h, _⟩ | ⟨h, _⟩ | ⟨_, h⟩
  · exact absurd (hA.symm.trans h) (by decide)
  · exact absurd (hA.symm.trans h) (by decide)
  · exact absurd (hA.symm.trans h) (by decide)
  · exact h

theorem unpack_eq_of_not_auto (img : PILImage) (t : PackingTemplate)
    (hcond : ¬(img.mode = .RGBA ∧ ¬t.chA.isSome)) :
    unpack_texture img t = unpackBase img t := by
  unfold unpack_texture
  rcases hb : unpackBase img t with e | base
  · rfl
  · simp
    intro h1 h2
    exact absurd ⟨h1, by rw [h2]; simp⟩ hcond

theorem unpack_eq_auto (img : PILImage) (t : PackingTemplate)
    (hm : img.mode = .RGBA) (hA : t.chA = none)
    (base : List (String × NpArray)) (hb : unpackBase img t = .ok base) :
    unpack_texture img t = .ok (pyDictSet base "alpha" (alphaPlane img)) := by
  have hcond : img.mode = .RGBA ∧ ¬t.chA.isSome := ⟨hm, by rw [hA]; simp⟩
  unfold unpack_texture
  rw [hb]
  rw [extract_channel_ok img "A" (Or.inr (Or.inr (Or.inr rfl))) (fun _ => hm)]
  rw [extractVal_rgb img "A" (Or.inr hm), planeArr_A]
  simp [hcond]

theorem mem_filterMap_four {α : Type} (o1 o2 o3 o4 : Option α) (x : α) :
    x ∈ ([o1, o2, o3, o4].filterMap id) ↔
      o1 = some x ∨ o2 = some x ∨ o3 = some x ∨ o4 = some x := by
  simp [List.mem_filterMap]
  constructor
  · rintro (h | h | h | h) <;> simp [h]
  · rintro (h | h | h | h) <;> simp [h]

theorem filterMap_four_nil {α : Type} (o1 o2 o3 o4 : Option α)
    (h : ([o1, o2, o3, o4].filterMap id).isEmpty = true) :
    o1 = none ∧ o2 = none ∧ o3 = none ∧ o4 = none := by
  cases o1 <;> cases o2 <;> cases o3 <;> cases o4 <;>
    simp [List.filterMap] at h ⊢

theorem resolveSlot_ok (textures : List (String × NpArray)) (cm? : Option ChannelMap)
    (htex : ∀ k arr, texGet textures k = some arr → arr.height ≠ 0 ∧ arr.width ≠ 0) :
    resolveSlot textures cm? =
      .ok (cm?.bind (fun cm => texGet textures cm.map_type)) := by
  cases cm? with
  | none => rfl
  | some cm =>
      rcases ht : texGet textures cm.map_type with _ | arr
      · simp [resolveSlot, ht]
      · have h := htex cm.map_type arr ht
        simp [resolveSlot, ht, validate_channel_data_ok arr h.1 h.2]

theorem fillSlot_some_of_used (target : Nat × Nat) (x : Option NpArray)
    (cm : ChannelMap) : ∃ arr, fillSlot target x (some cm) = some arr := by
  cases x with
  | none => exact ⟨_, rfl⟩
  | some arr => exact ⟨arr, rfl⟩

theorem fillSlot_cases (target : Nat × Nat) (x : Option NpArray)
    (cm? : Option ChannelMap) (arr : NpArray)
    (h : fillSlot target x cm? = some arr) :
    x = some arr ∨ (x = none ∧ ∃ cm, cm? = some cm ∧
      arr = constArr target.2 target.1 (pyInt (cm.default_value * 255))) := by
  cases x with
  | none =>
      cases cm? with
      | none => cases h
      | some cm =>
          refine Or.inr ⟨rfl, cm, rfl, ?_⟩
          have : some (constArr target.2 target.1 (pyInt (cm.default_value * 255))) =
              some arr := h
          exact (Option.some_inj.mp this).symm
  | some y =>
      have : some y = some arr := h
      exact Or.inl (by rw [Option.some_inj.mp this])

theorem ptt_eq (textures : List (String × NpArray)) (t : PackingTemplate)
    (htex : ∀ k arr, texGet textures k = some arr → arr.height ≠ 0 ∧ arr.width ≠ 0) :
    pack_texture_from_template textures t =
      pttFinish t (t.chR.bind (fun cm => texGet textures cm.map_type))
        (t.chG.bind (fun cm => texGet textures cm.map_type))
        (t.chB.bind (fun cm => texGet textures cm.map_type))
        (t.chA.bind (fun cm => texGet textures cm.map_type))
        (ptt_target textures t) := by
  unfold pack_texture_from_template
  rw [resolveSlot_ok textures t.chR htex, resolveSlot_ok textures t.chG htex,
    resolveSlot_ok textures t.chB htex, resolveSlot_ok textures t.chA htex]
  show (if _ then _ else _) = _
  by_cases he : ([t.chR.bind (fun cm => texGet textures cm.map_type),
      t.chG.bind (fun cm => texGet textures cm.map_type),
      t.chB.bind (fun cm => texGet textures cm.map_type),
      t.chA.bind (fun cm => texGet textures cm.map_type)].filterMap id).isEmpty
  · rw [if_pos he]
    unfold ptt_target
    rw [if_pos he]
  · rw [if_neg he]
    have hval : validateAll ([t.chR.bind (fun cm => texGet textures cm.map_type),
        t.chG.bind (fun cm => texGet textures cm.map_type),
        t.chB.bind (fun cm => texGet textures cm.map_type),
        t.chA.bind (fun cm => texGet textures cm.map_type)].filterMap id) = .ok () := by
      apply validateAll_ok
      intro arr harr
      rcases (mem_filterMap_four _ _ _ _ arr).mp harr with h | h | h | h <;>
        · rcases Option.bind_eq_some.mp h with ⟨cm, hcm, htg⟩
          exact htex _ arr htg
    rw [hval]
    unfold ptt_target
    rw [if_neg he]

theorem packMax_eq_of_bounds (r g b a : Option NpArray) (W H : Nat)
    (hub : ∀ arr ∈ packProvided r g b a, arr.width ≤ W ∧ arr.height ≤ H)
    (hexW : ∃ arr ∈ packProvided r g b a, arr.width = W)
    (hexH : ∃ arr ∈ packProvided r g b a, arr.height = H) :
    packMaxW r g b a = W ∧ packMaxH r g b a = H := by
  constructor
  · apply Nat.le_antisymm
    · apply foldl_max_le _ _ _ (Nat.zero_le W)
      intro x hx
      rcases List.mem_map.mp hx with ⟨arr, harr, hax⟩
      exact hax ▸ (hub arr harr).1
    · rcases hexW with ⟨arr, harr, hw⟩
      exact hw ▸ le_foldl_max _ 0 arr.width (List.mem_map_of_mem (·.width) harr)
  · apply Nat.le_antisymm
    · apply foldl_max_le _ _ _ (Nat.zero_le H)
      intro x hx
      rcases List.mem_map.mp hx with ⟨arr, harr, hax⟩
      exact hax ▸ (hub arr harr).2
    · rcases hexH with ⟨arr, harr, hh⟩
      exact hh ▸ le_foldl_max _ 0 arr.height (List.mem_map_of_mem (·.height) harr)

theorem fillSlot_some (target : Nat × Nat) (x : NpArray) (cm? : Option ChannelMap) :
    fillSlot target (some x) cm? = some x := rfl

theorem fillSlot_none_used (target : Nat × Nat) (cm : ChannelMap) :
    fillSlot target none (some cm) =
      some (constArr target.2 target.1 (pyInt (cm.default_value * 255))) := rfl

theorem pttFinish_spec (t : PackingTemplate) (rx gx bx ax : Option NpArray)
    (T : Nat × Nat)
    (hTdef : T = (if ([rx, gx, bx, ax].filterMap id).isEmpty
        then ((1024, 1024) : Nat × Nat)
        else ((([rx, gx, bx, ax].filterMap id).map (·.width)).foldl Nat.max 0,
              (([rx, gx, bx, ax].filterMap id).map (·.height)).foldl Nat.max 0)))
    (htexnz : ∀ arr ∈ [rx, gx, bx, ax].filterMap id, arr.height ≠ 0 ∧ arr.width ≠ 0)
    (hused : t.get_used_channels ≠ []) :
    ∃ s, pttFinish t rx gx bx ax T = .ok s ∧ s.width = T.1 ∧ s.height = T.2 ∧
      ∀ p ∈ t.get_used_channels, slotBuf rx gx bx ax p.1 = none →
        ∀ i j, s.data (channelIndex p.1) i j = pyInt (p.2.default_value * 255) := by
  have hT12 : T.1 ≠ 0 ∧ T.2 ≠ 0 := by
    by_cases he : ([rx, gx, bx, ax].filterMap id).isEmpty
    · rw [hTdef, if_pos he]
      exact ⟨by decide, by decide⟩
    · rw [hTdef, if_neg he]
      have hne : [rx, gx, bx, ax].filterMap id ≠ [] := by
        intro hnil
        rw [hnil] at he
        exact he rfl
      rcases List.exists_mem_of_ne_nil _ hne with ⟨x, hx⟩
      have hx2 := htexnz x hx
      constructor
      · intro h0
        simp only [] at h0
        have hle : x.width ≤ (([rx, gx, bx, ax].filterMap id).map (·.width)).foldl Nat.max 0 :=
          le_foldl_max _ 0 x.width (List.mem_map_of_mem (·.width) hx)
        rw [h0] at hle
        exact hx2.2 (Nat.le_zero.mp hle)
      · intro h0
        simp only [] at h0
        have hle : x.height ≤ (([rx, gx, bx, ax].filterMap id).map (·.height)).foldl Nat.max 0 :=
          le_foldl_max _ 0 x.height (List.mem_map_of_mem (·.height) hx)
        rw [h0] at hle
        exact hx2.1 (Nat.le_zero.mp hle)
  have htex_in_prov : ∀ x ∈ [rx, gx, bx, ax].filterMap id,
      x ∈ packProvided (fillSlot T rx t.chR) (fillSlot T gx t.chG)
        (fillSlot T bx t.chB) (fillSlot T ax t.chA) := by
    intro x hx
    rcases (mem_filterMap_four rx gx bx ax x).mp hx with h | h | h | h
    · exact (mem_packProvided _ _ _ _ x).mpr (Or.inl (by rw [h, fillSlot_some]))
    · exact (mem_packProvided _ _ _ _ x).mpr
        (Or.inr (Or.inl (by rw [h, fillSlot_some])))
    · exact (mem_packProvided _ _ _ _ x).mpr
        (Or.inr (Or.inr (Or.inl (by rw [h, fillSlot_some]))))
    · exact (mem_packProvided _ _ _ _ x).mpr
        (Or.inr (Or.inr (Or.inr (by rw [h, fillSlot_some]))))
  have hprov : ∀ arr ∈ packProvided (fillSlot T rx t.chR) (fillSlot T gx t.chG)
      (fillSlot T bx t.chB) (fillSlot T ax t.chA),
      arr ∈ [rx, gx, bx, ax].filterMap id ∨ (arr.width = T.1 ∧ arr.height = T.2) := by
    intro arr harr
    rcases (mem_packProvided _ _ _ _ arr).mp harr with h | h | h | h
    · rcases fillSlot_cases T rx t.chR arr h with h2 | ⟨_, cm, _, hc⟩
      · exact Or.inl ((mem_filterMap_four _ _ _ _ arr).mpr (Or.inl h2))
      · exact Or.inr (by rw [hc]; exact ⟨rfl, rfl⟩)
    · rcases fillSlot_cases T gx t.chG arr h with h2 | ⟨_, cm, _, hc⟩
      · exact Or.inl ((mem_filterMap_four _ _ _ _ arr).mpr (Or.inr (Or.inl h2)))
      · exact Or.inr (by rw [hc]; exact ⟨rfl, rfl⟩)
    · rcases fillSlot_cases T bx t.chB arr h with h2 | ⟨_, cm, _, hc⟩
      · exact Or.inl ((mem_filterMap_four _ _ _ _ arr).mpr (Or.inr (Or.inr (Or.inl h2))))
      · exact Or.inr (by rw [hc]; exact ⟨rfl, rfl⟩)
    · rcases fillSlot_cases T ax t.chA arr h with h2 | ⟨_, cm, _, hc⟩
      · exact Or.inl ((mem_filterMap_four _ _ _ _ arr).mpr (Or.inr (Or.inr (Or.inr h2))))
      · exact Or.inr (by rw [hc]; exact ⟨rfl, rfl⟩)
  have hnopt : ¬(fillSlot T rx t.chR = none ∧ fillSlot T gx t.chG = none ∧
      fillSlot T bx t.chB = none ∧ fillSlot T ax t.chA = none) := by
    rintro ⟨h1, h2, h3, h4⟩
    rcases List.exists_mem_of_ne_nil _ hused with ⟨p, hp⟩
    rcases (mem_used_iff t p).mp hp with ⟨_, hc⟩ | ⟨_, hc⟩ | ⟨_, hc⟩ | ⟨_, hc⟩
    · rcases fillSlot_some_of_used T rx p.2 with ⟨arr, ha⟩
      rw [hc] at h1; rw [h1] at ha; cases ha
    · rcases fillSlot_some_of_used T gx p.2 with ⟨arr, ha⟩
      rw [hc] at h2; rw [h2] at ha; cases ha
    · rcases fillSlot_some_of_used T bx p.2 with ⟨arr, ha⟩
      rw [hc] at h3; rw [h3] at ha; cases ha
    · rcases fillSlot_some_of_used T ax p.2 with ⟨arr, ha⟩
      rw [hc] at h4; rw [h4] at ha; cases ha
  have hprovne : packProvided (fillSlot T rx t.chR) (fillSlot T gx t.chG)
      (fillSlot T bx t.chB) (fillSlot T ax t.chA) ≠ [] :=
    packProvided_ne_nil _ _ _ _ hnopt
  have hnz : ∀ arr ∈ packProvided (fillSlot T rx t.chR) (fillSlot T gx t.chG)
      (fillSlot T bx t.chB) (fillSlot T ax t.chA), arr.height ≠ 0 ∧ arr.width ≠ 0 := by
    intro arr harr
    rcases hprov arr harr with h | h
    · exact htexnz arr h
    · exact ⟨h.2 ▸ hT12.2, h.1 ▸ hT12.1⟩
  have hub : ∀ arr ∈ packProvided (fillSlot T rx t.chR) (fillSlot T gx t.chG)
      (fillSlot T bx t.chB) (fillSlot T ax t.chA),
      arr.width ≤ T.1 ∧ arr.height ≤ T.2 := by
    intro arr harr
    rcases hprov arr harr with h | h
    · by_cases he : ([rx, gx, bx, ax].filterMap id).isEmpty
      · exact absurd h (by rw [List.isEmpty_iff.mp he]; simp)
      · constructor
        · have := le_foldl_max (([rx, gx, bx, ax].filterMap id).map (·.width)) 0
            arr.width (List.mem_map_of_mem (·.width) h)
          rw [hTdef, if_neg he]
          exact this
        · have := le_foldl_max (([rx, gx, bx, ax].filterMap id).map (·.height)) 0
            arr.height (List.mem_map_of_mem (·.height) h)
          rw [hTdef, if_neg he]
          exact this
    · exact ⟨le_of_eq h.1, le_of_eq h.2⟩
  have hex : (∃ arr ∈ packProvided (fillSlot T rx t.chR) (fillSlot T gx t.chG)
      (fillSlot T bx t.chB) (fillSlot T ax t.chA), arr.width = T.1) ∧
      (∃ arr ∈ packProvided (fillSlot T rx t.chR) (fillSlot T gx t.chG)
        (fillSlot T bx t.chB) (fillSlot T ax t.chA), arr.height = T.2) := by
    by_cases he : ([rx, gx, bx, ax].filterMap id).isEmpty
    · rcases List.exists_mem_of_ne_nil _ hprovne with ⟨arr, harr⟩
      rcases hprov arr harr with h | h
      · exact absurd h (by rw [List.isEmpty_iff.mp he]; simp)
      · exact ⟨⟨arr, harr, h.1⟩, ⟨arr, harr, h.2⟩⟩
    · have hne : [rx, gx, bx, ax].filterMap id ≠ [] := by
        intro hnil; rw [hnil] at he; exact he rfl
      constructor
      · have hmem := foldl_max_mem (([rx, gx, bx, ax].filterMap id).map (·.width))
          (by simpa using hne)
        rcases List.mem_map.mp hmem with ⟨x, hx, hxw⟩
        refine ⟨x, htex_in_prov x hx, ?_⟩
        rw [hTdef, if_neg he]
        exact hxw
      · have hmem := foldl_max_mem (([rx, gx, bx, ax].filterMap id).map (·.height))
          (by simpa using hne)
        rcases List.mem_map.mp hmem with ⟨x, hx, hxh⟩
        refine ⟨x, htex_in_prov x hx, ?_⟩
        rw [hTdef, if_neg he]
        exact hxh
  have hmax := packMax_eq_of_bounds (fillSlot T rx t.chR) (fillSlot T gx t.chG)
    (fillSlot T bx t.chB) (fillSlot T ax t.chA) T.1 T.2 hub hex.1 hex.2
  have hpack := pack_channels_eq (fillSlot T rx t.chR) (fillSlot T gx t.chG)
    (fillSlot T bx t.chB) (fillSlot T ax t.chA) hnopt hnz
  rw [hmax.1, hmax.2] at hpack
  refine ⟨_, hpack, rfl, rfl, ?_⟩
  intro p hp hslot i j
  rcases (mem_used_iff t p).mp hp with ⟨hk, hc⟩ | ⟨hk, hc⟩ | ⟨hk, hc⟩ | ⟨hk, hc⟩
  · have hrxn : rx = none := by rw [slotBuf, if_pos hk] at hslot; exact hslot
    have hfr : fillSlot T rx t.chR =
        some (constArr T.2 T.1 (pyInt (p.2.default_value * 255))) := by
      rw [hrxn, hc, fillSlot_none_used]
    rw [hk]
    show (packAssemble T.2 T.1 _ _ _ _ _).data 0 i j = _
    rw [packAssemble_data_R T.2 T.1 _ _ _ _ (packNf T.1 T.2) _ hfr i j]
    rw [packNf_at_target T.1 T.2 _ rfl rfl]
    rfl
  · have hgxn : gx = none := by
      rw [slotBuf, if_neg (by rw [hk]; decide), if_pos hk] at hslot; exact hslot
    have hfg : fillSlot T gx t.chG =
        some (constArr T.2 T.1 (pyInt (p.2.default_value * 255))) := by
      rw [hgxn, hc, fillSlot_none_used]
    rw [hk]
    show (packAssemble T.2 T.1 _ _ _ _ _).data 1 i j = _
    rw [packAssemble_data_G T.2 T.1 _ _ _ _ (packNf T.1 T.2) _ hfg i j]
    rw [packNf_at_target T.1 T.2 _ rfl rfl]
    rfl
  · have hbxn : bx = none := by
      rw [slotBuf, if_neg (by rw [hk]; decide), if_neg (by rw [hk]; decide),
        if_pos hk] at hslot
      exact hslot
    have hfb : fillSlot T bx t.chB =
        some (constArr T.2 T.1 (pyInt (p.2.default_value * 255))) := by
      rw [hbxn, hc, fillSlot_none_used]
    rw [hk]
    show (packAssemble T.2 T.1 _ _ _ _ _).data 2 i j = _
    rw [packAssemble_data_B T.2 T.1 _ _ _ _ (packNf T.1 T.2) _ hfb i j]
    rw [packNf_at_target T.1 T.2 _ rfl rfl]
    rfl
  · have haxn : ax = none := by
      rw [slotBuf, if_neg (by rw [hk]; decide), if_neg (by rw [hk]; decide),
        if_neg (by rw [hk]; decide), if_pos hk] at hslot
      exact hslot
    have hfa : fillSlot T ax t.chA =
        some (constArr T.2 T.1 (pyInt (p.2.default_value * 255))) := by
      rw [haxn, hc, fillSlot_none_used]
    rw [hk]
    show (packAssemble T.2 T.1 _ _ _ _ _).data 3 i j = _
    rw [packAssemble_data_A T.2 T.1 _ _ _ _ (packNf T.1 T.2) _ hfa i j]
    rw [packNf_at_target T.1 T.2 _ rfl rfl]
    rfl

/-- Claim C2: default-fill correctness with truncating conversion.  For
every template and texture dict (of raw buffers), every used slot whose
texture is absent is filled with the constant `int(default_value * 255)`
(truncation toward zero, `pyInt`), at the target resolution; the target
falls back to 1024x1024 when no texture at all is supplied.  The
1024x1024/(255,127,0) instance of the claim is the witness theorem. -/
theorem C2_default_fill_truncating (textures : List (String × NpArray))
    (t : PackingTemplate)
    (htex : ∀ k arr, texGet textures k = some arr → arr.height ≠ 0 ∧ arr.width ≠ 0)
    (hused : t.get_used_channels ≠ []) :
    ∃ s, pack_texture_from_template textures t = .ok s ∧
      s.width = (ptt_target textures t).1 ∧ s.height = (ptt_target textures t).2 ∧
      ∀ p ∈ t.get_used_channels, texGet textures p.2.map_type = none →
        ∀ i j, s.data (channelIndex p.1) i j = pyInt (p.2.default_value * 255) := by
  have heq := ptt_eq textures t htex
  have htexnz : ∀ arr ∈ [t.chR.bind (fun cm => texGet textures cm.map_type),
      t.chG.bind (fun cm => texGet textures cm.map_type),
      t.chB.bind (fun cm => texGet textures cm.map_type),
      t.chA.bind (fun cm => texGet textures cm.map_type)].filterMap id,
      arr.height ≠ 0 ∧ arr.width ≠ 0 := by
    intro arr harr
    rcases (mem_filterMap_four _ _ _ _ arr).mp harr with h | h | h | h <;>
      · rcases Option.bind_eq_some.mp h with ⟨cm, hcm, htg⟩
        exact htex _ arr htg
  obtain ⟨s, hok, hw, hh, hfill⟩ := pttFinish_spec t
    (t.chR.bind (fun cm => texGet textures cm.map_type))
    (t.chG.bind (fun cm => texGet textures cm.map_type))
    (t.chB.bind (fun cm => texGet textures cm.map_type))
    (t.chA.bind (fun cm => texGet textures cm.map_type))
    (ptt_target textures t) rfl htexnz hused
  refine ⟨s, by rw [heq]; exact hok, hw, hh, ?_⟩
  intro p hp htg i j
  apply hfill p hp _ i j
  rcases (mem_used_iff t p).mp hp with ⟨hk, hc⟩ | ⟨hk, hc⟩ | ⟨hk, hc⟩ | ⟨hk, hc⟩
  · rw [slotBuf, if_pos hk, hc]
    simp [htg]
  · rw [slotBuf, if_neg (by rw [hk]; decide), if_pos hk, hc]
    simp [htg]
  · rw [slotBuf, if_neg (by rw [hk]; decide), if_neg (by rw [hk]; decide),
      if_pos hk, hc]
    simp [htg]
  · rw [slotBuf, if_neg (by rw [hk]; decide), if_neg (by rw [hk]; decide),
      if_neg (by rw [hk]; decide), if_pos hk, hc]
    simp [htg]

/-- Witness for C2: packing with zero textures and the ORM template
(defaults 1.0, 0.5, 0.0) yields a 1024x1024 RGB stack whose pixel (0,0) is
(255, 127, 0) - in particular the 0.5 default becomes 127, not 128. -/
theorem C2_default_fill_truncating_witness :
    (pack_texture_from_template [] ormTemplate).map
      (fun s => (s.width, s.height, s.data 0 0 0, s.data 1 0 0, s.data 2 0 0)) =
      .ok (1024, 1024, 255, 127, 0) := by
  obtain ⟨s, hok, hw, hh, hfill⟩ := C2_default_fill_truncating [] ormTemplate
    (fun k arr h => Option.noConfusion h)
    (by simp [ormTemplate, PackingTemplate.get_used_channels, optEntry])
  rw [hok]
  have hR : s.data 0 0 0 = pyInt (ormAO.default_value * 255) :=
    hfill ("R", ormAO)
      (by simp [ormTemplate, PackingTemplate.get_used_channels, optEntry]) rfl 0 0
  have hG : s.data 1 0 0 = pyInt (ormRough.default_value * 255) :=
    hfill ("G", ormRough)
      (by simp [ormTemplate, PackingTemplate.get_used_channels, optEntry]) rfl 0 0
  have hB : s.data 2 0 0 = pyInt (ormMetal.default_value * 255) :=
    hfill ("B", ormMetal)
      (by simp [ormTemplate, PackingTemplate.get_used_channels, optEntry]) rfl 0 0
  have hT : ptt_target [] ormTemplate = (1024, 1024) := rfl
  rw [hT] at hw hh
  show Except.ok (s.width, s.height, s.data 0 0 0, s.data 1 0 0, s.data 2 0 0) = _
  rw [hw, hh]
  have e1 : s.data 0 0 0 = 255 := by
    rw [hR]
    show pyInt ((1 : ℚ) * 255) = 255
    norm_num [pyInt]
  have e2 : s.data 1 0 0 = 127 := by
    rw [hG]
    show pyInt ((1/2 : ℚ) * 255) = 127
    norm_num [pyInt]
  have e3 : s.data 2 0 0 = 0 := by
    rw [hB]
    show pyInt ((0 : ℚ) * 255) = 0
    norm_num [pyInt]
  rw [e1, e2, e3]

/-- Claim C3: the packing target resolution is the componentwise maximum
of the provided buffers' (width, height) pairs - width and height
maximized independently, not the resolution of the largest-area input.
The packed stack's width is an upper bound of, and attained by, the input
widths, and likewise for heights; `get_max_resolution` returns the same
componentwise maximum for images; and on the concrete pair 100x50 / 60x80
the target (100, 80) equals neither input's resolution. -/
theorem C3_target_componentwise_max :
    (∀ r g b a : Option NpArray,
      ¬(r = none ∧ g = none ∧ b = none ∧ a = none) →
      (∀ arr ∈ packProvided r g b a, arr.height ≠ 0 ∧ arr.width ≠ 0) →
      ∃ s, pack_channels r g b a = .ok s ∧
        (∀ arr ∈ packProvided r g b a, arr.width ≤ s.width ∧ arr.height ≤ s.height) ∧
        (∃ arr ∈ packProvided r g b a, arr.width = s.width) ∧
        (∃ arr ∈ packProvided r g b a, arr.height = s.height)) ∧
    (pack_channels (some (constArr 1080 1920 0)) (some (constArr 1024 1024 0))
        none none).map (fun s => (s.width, s.height)) = .ok (1920, 1080) ∧
    (pack_channels (some (constArr 50 100 0)) (some (constArr 80 60 0))
        none none).map (fun s => (s.width, s.height)) = .ok (100, 80) ∧
    ((100, 80) ≠ ((constArr 50 100 (0 : Int)).width, (constArr 50 100 (0 : Int)).height) ∧
     (100, 80) ≠ ((constArr 80 60 (0 : Int)).width, (constArr 80 60 (0 : Int)).height)) ∧
    get_max_resolution [⟨.RGB, 1080, 1920, fun _ _ _ => 0⟩,
      ⟨.RGB, 1024, 1024, fun _ _ _ => 0⟩] = .ok (1920, 1080) := by
  refine ⟨?_, by rfl, by rfl, ⟨by decide, by decide⟩, by rfl⟩
  intro r g b a hne hnz
  have hpack := pack_channels_eq r g b a hne hnz
  refine ⟨_, hpack, ?_, ?_, ?_⟩
  · intro arr harr
    constructor
    · exact le_foldl_max _ 0 arr.width (List.mem_map_of_mem (·.width) harr)
    · exact le_foldl_max _ 0 arr.height (List.mem_map_of_mem (·.height) harr)
  · have hmem := foldl_max_mem ((packProvided r g b a).map (·.width))
      (by simpa using packProvided_ne_nil r g b a hne)
    rcases List.mem_map.mp hmem with ⟨arr, harr, hw⟩
    exact ⟨arr, harr, hw⟩
  · have hmem := foldl_max_mem ((packProvided r g b a).map (·.height))
      (by simpa using packProvided_ne_nil r g b a hne)
    rcases List.mem_map.mp hmem with ⟨arr, harr, hh⟩
    exact ⟨arr, harr, hh⟩

/-- Witness for C3: the claim's own example - buffers 1920x1080 and
1024x1024 pack to target resolution (1920, 1080), the componentwise
maximum. -/
theorem C3_target_componentwise_max_witness :
    ∀ arr ∈ packProvided (some (constArr 1080 1920 (0 : Int)))
      (some (constArr 1024 1024 0)) none none,
      arr.width ≤ 1920 ∧ arr.height ≤ 1080 := by
  obtain ⟨s, hok, hub, hexw, hexh⟩ :=
    C3_target_componentwise_max.1 (some (constArr 1080 1920 0))
      (some (constArr 1024 1024 0)) none none (by simp) (by decide)
  have hs : s.width = 1920 ∧ s.height = 1080 := by
    have := C3_target_componentwise_max.2.1
    rw [hok] at this
    have h2 : (s.width, s.height) = (1920, 1080) := by
      exact Except.ok.inj this
    exact ⟨congrArg Prod.fst h2, congrArg Prod.snd h2⟩
  intro arr harr
  have h := hub arr harr
  rw [hs.1, hs.2] at h
  exact h




/-- Claim C4 (amended): a numeric buffer already at the target resolution
is passed through `pack_channels` without any uint8 coercion - its raw
samples, including values outside 0..255, reach the composed stack
verbatim (only buffers that need resizing go through `from_grayscale`,
which clips).  The original claim - that every buffer is clipped to
0..255 before composition, "including buffers already at the target
resolution" - is refuted by `C4_uint8_coercion_counterexample`. -/
theorem C4_same_size_pass_through_uncoerced (r g b a : Option NpArray) (h w : Nat)
    (hne : ¬(r = none ∧ g = none ∧ b = none ∧ a = none))
    (hh : h ≠ 0) (hw : w ≠ 0)
    (hshape : ∀ arr ∈ packProvided r g b a, arr.height = h ∧ arr.width = w) :
    ∃ s, pack_channels r g b a = .ok s ∧ s.height = h ∧ s.width = w ∧
      (∀ arr, r = some arr → ∀ i j, s.data 0 i j = arr.data i j) ∧
      (∀ arr, g = some arr → ∀ i j, s.data 1 i j = arr.data i j) ∧
      (∀ arr, b = some arr → ∀ i j, s.data 2 i j = arr.data i j) ∧
      (∀ arr, a = some arr → ∀ i j, s.data 3 i j = arr.data i j) := by
  have hnz : ∀ arr ∈ packProvided r g b a, arr.height ≠ 0 ∧ arr.width ≠ 0 := by
    intro arr harr
    exact ⟨(hshape arr harr).1 ▸ hh, (hshape arr harr).2 ▸ hw⟩
  have hmaxH : packMaxH r g b a = h :=
    foldl_max_const _ h
      (by simpa using packProvided_ne_nil r g b a hne)
      (by intro x hx
          rcases List.mem_map.mp hx with ⟨arr, harr, hax⟩
          exact hax ▸ (hshape arr harr).1)
  have hmaxW : packMaxW r g b a = w :=
    foldl_max_const _ w
      (by simpa using packProvided_ne_nil r g b a hne)
      (by intro x hx
          rcases List.mem_map.mp hx with ⟨arr, harr, hax⟩
          exact hax ▸ (hshape arr harr).2)
  have hpack := pack_channels_eq r g b a hne hnz
  rw [hmaxH, hmaxW] at hpack
  refine ⟨_, hpack, rfl, rfl, ?_, ?_, ?_, ?_⟩
  · intro arr hr i j
    have hmem : arr ∈ packProvided r g b a :=
      (mem_packProvided r g b a arr).mpr (Or.inl hr)
    rw [packAssemble_data_R h w r g b a (packNf w h) arr hr i j]
    rw [packNf_at_target w h arr (hshape arr hmem).2 (hshape arr hmem).1]
  · intro arr hg i j
    have hmem : arr ∈ packProvided r g b a :=
      (mem_packProvided r g b a arr).mpr (Or.inr (Or.inl hg))
    rw [packAssemble_data_G h w r g b a (packNf w h) arr hg i j]
    rw [packNf_at_target w h arr (hshape arr hmem).2 (hshape arr hmem).1]
  · intro arr hb i j
    have hmem : arr ∈ packProvided r g b a :=
      (mem_packProvided r g b a arr).mpr (Or.inr (Or.inr (Or.inl hb)))
    rw [packAssemble_data_B h w r g b a (packNf w h) arr hb i j]
    rw [packNf_at_target w h arr (hshape arr hmem).2 (hshape arr hmem).1]
  · intro arr ha i j
    have hmem : arr ∈ packProvided r g b a :=
      (mem_packProvided r g b a arr).mpr (Or.inr (Or.inr (Or.inr ha)))
    rw [packAssemble_data_A h w r g b a (packNf w h) arr ha i j]
    rw [packNf_at_target w h arr (hshape arr hmem).2 (hshape arr hmem).1]

/-- Witness for C4's amended theorem: two 2x2 same-size buffers, one
holding -5 and one holding 300, compose verbatim (uncoerced, unclipped)
with a zero-filled blue plane. -/
theorem C4_same_size_pass_through_uncoerced_witness :
    (pack_channels (some (constArr 2 2 (-5))) (some (constArr 2 2 300)) none none).map
      (fun s => (s.height, s.width, s.data 0 0 0, s.data 1 0 0)) =
      .ok (2, 2, -5, 300) := by
  obtain ⟨s, hok, hh, hw, hR, hG, hB, hA⟩ :=
    C4_same_size_pass_through_uncoerced (some (constArr 2 2 (-5)))
      (some (constArr 2 2 300)) none none 2 2 (by simp) (by decide) (by decide)
      (by decide)
  rw [hok]
  show Except.ok (s.height, s.width, s.data 0 0 0, s.data 1 0 0) = _
  rw [hh, hw, hR (constArr 2 2 (-5)) rfl 0 0, hG (constArr 2 2 300) rfl 0 0]
  rfl

/-- Counterexample to claim C4 as stated: a 1x1 int buffer with sample 300
is already at the target resolution, so `pack_channels` composes the raw
value 300 into the stack - not the claimed clip into 0..255.  The claim
that packing coerces every numeric buffer to uint8 "including buffers
already at the target resolution" is therefore false at this input. -/
theorem C4_uint8_coercion_counterexample :
    (pack_channels (some (constArr 1 1 300)) none none none).map
      (fun s => s.data 0 0 0) = .ok 300 ∧ ¬((300 : Int) ≤ 255) ∧
      clip8 300 = 255 :=
  ⟨rfl, by decide, by decide⟩


/-- Claim C5 (amended): `extract_channel(image, "A")` fails with the
"cannot extract alpha" error (the spec's InvalidStateError kind) exactly
when the image's mode is not RGBA - in particular every 3-plane RGB image
fails, and every RGBA image returns the literal 4th plane.  This is not
the same as "exactly when the image has no alpha plane": an LA image has
an alpha plane yet also fails (see `C5_alpha_extraction_counterexample`). -/
theorem C5_alpha_extraction_mode_boundary :
    (∀ img : PILImage, img.mode ≠ .RGBA →
      extract_channel img "A" = .error .cannotExtractAlpha) ∧
    (∀ img : PILImage, img.mode = .RGBA →
      extract_channel img "A" = .ok (alphaPlane img)) ∧
    (∀ img : PILImage, img.mode = .RGB → hasAlphaPlane img = false) := by
  refine ⟨?_, ?_, ?_⟩
  · intro img hm
    unfold extract_channel
    rw [if_neg (not_not_intro (Or.inr (Or.inr (Or.inr rfl))))]
    rw [if_pos ⟨rfl, hm⟩]
  · intro img hm
    rw [extract_channel_ok img "A" (Or.inr (Or.inr (Or.inr rfl))) (fun _ => hm)]
    rw [extractVal_rgb img "A" (Or.inr hm), planeArr_A]
  · intro img hm
    simp [hasAlphaPlane, hm]

/-- Witness for C5: a concrete RGB image fails with the cannot-extract
error, and a concrete RGBA image returns its literal 4th plane. -/
theorem C5_alpha_extraction_mode_boundary_witness :
    extract_channel ⟨.RGB, 1, 1, fun b _ _ => b + 2⟩ "A" =
      .error .cannotExtractAlpha ∧
    extract_channel ⟨.RGBA, 1, 1, fun b _ _ => b + 2⟩ "A" =
      .ok (alphaPlane ⟨.RGBA, 1, 1, fun b _ _ => b + 2⟩) :=
  ⟨C5_alpha_extraction_mode_boundary.1 ⟨.RGB, 1, 1, fun b _ _ => b + 2⟩ (by decide),
   C5_alpha_extraction_mode_boundary.2.1 ⟨.RGBA, 1, 1, fun b _ _ => b + 2⟩ rfl⟩

/-- Counterexample to claim C5 as stated: an LA (grayscale+alpha) image
does have an alpha plane, yet `extract_channel(image, "A")` fails, because
the code checks `image.mode != "RGBA"` - so the failure is not "exactly
when the image has no alpha plane". -/
theorem C5_alpha_extraction_counterexample :
    hasAlphaPlane ⟨.LA, 1, 1, fun _ _ _ => 7⟩ = true ∧
    extract_channel ⟨.LA, 1, 1, fun _ _ _ => 7⟩ "A" =
      .error .cannotExtractAlpha :=
  ⟨by decide, rfl⟩

/-- Claim C8 (amended): a template document with malformed JSON syntax is
rejected with `TemplateValidationError` - the same error class as every
schema violation (missing name, missing description, non-object channels,
invalid channel key, out-of-range default), not a distinct one; the raise
sites differ only in message and exception cause. -/
theorem C8_malformed_json_same_error_class :
    load_template none = .error .templateValidationError ∧
    load_template (some (Json.jobj [])) = .error .templateValidationError ∧
    load_template (some (Json.jobj [("name", Json.jstr "T")])) =
      .error .templateValidationError ∧
    load_template (some (Json.jobj [("name", Json.jstr "T"),
      ("description", Json.jstr "d"), ("channels", Json.jstr "no")])) =
      .error .templateValidationError ∧
    load_template (some (Json.jobj [("name", Json.jstr "T"),
      ("description", Json.jstr "d"),
      ("channels", Json.jobj [("X", Json.jnull)])])) =
      .error .templateValidationError ∧
    load_template (some (Json.jobj [("name", Json.jstr "T"),
      ("description", Json.jstr "d"),
      ("channels", Json.jobj [("R", Json.jobj [("type", Json.jstr "x"),
        ("default", Json.jnum 2)])])])) =
      .error .templateValidationError :=
  ⟨rfl, rfl, rfl, rfl, rfl, rfl⟩

/-- Counterexample to claim C8 as stated: the error raised for malformed
JSON syntax is the very same `TemplateValidationError` raised for a schema
violation such as a missing `name` - `load_template` wraps the
JSONDecodeError (template_loader.py lines 51-57), so the two failure
kinds are not distinct. -/
theorem C8_malformed_json_counterexample :
    load_template none = .error .templateValidationError ∧
    load_template (some (Json.jobj [])) = .error .templateValidationError ∧
    load_template none = load_template (some (Json.jobj [])) :=
  ⟨rfl, rfl, rfl⟩


/-- Claim C7: best-effort alpha auto-extraction.  For every RGBA image and
every template whose A slot is unused, `unpack_texture` succeeds and its
result is the template-driven result with the synthetic key "alpha"
additionally written to the image's alpha plane; every template-defined
map_type is still present, and every map_type other than the literal
string "alpha" keeps its template-driven value.  The auto step is the
try/except post-step of the code and never makes the call fail. -/
theorem C7_auto_alpha_extraction (img : PILImage) (t : PackingTemplate)
    (hm : img.mode = .RGBA) (hA : t.chA = none) :
    ∃ base, unpackBase img t = .ok base ∧
      unpack_texture img t = .ok (pyDictSet base "alpha" (alphaPlane img)) ∧
      pyDictGet (pyDictSet base "alpha" (alphaPlane img)) "alpha" =
        some (alphaPlane img) ∧
      (∀ p ∈ t.get_used_channels,
        ∃ e, pyDictGet (pyDictSet base "alpha" (alphaPlane img)) p.2.map_type =
          some e) ∧
      (∀ p ∈ t.get_used_channels, p.2.map_type ≠ "alpha" →
        pyDictGet (pyDictSet base "alpha" (alphaPlane img)) p.2.map_type =
          pyDictGet base p.2.map_type) := by
  have hbase : unpackBase img t =
      .ok (foldDict []
        (t.get_used_channels.map (fun p => (p.2.map_type, extractVal img p.1)))) :=
    unpackLoop_ok img t.get_used_channels []
      (fun p hp => ⟨used_keys_valid t p hp, fun _ => hm⟩)
  refine ⟨_, hbase, unpack_eq_auto img t hm hA _ hbase, ?_, ?_, ?_⟩
  · rw [pyDictGet_set, if_pos rfl]
  · intro p hp
    by_cases halpha : p.2.map_type = "alpha"
    · rw [halpha, pyDictGet_set, if_pos rfl]
      exact ⟨alphaPlane img, rfl⟩
    · rw [pyDictGet_set, if_neg halpha]
      have h1 : (p.2.map_type, extractVal img p.1) ∈
          t.get_used_channels.map (fun p => (p.2.map_type, extractVal img p.1)) :=
        List.mem_map_of_mem (fun p => (p.2.map_type, extractVal img p.1)) hp
      have hmem : p.2.map_type ∈
          (t.get_used_channels.map
            (fun p => (p.2.map_type, extractVal img p.1))).map (·.1) :=
        List.mem_map_of_mem (·.1) h1
      have hsome := lastVal?_isSome_of_mem _ _ hmem
      rw [pyDictGet_foldDict]
      rcases Option.isSome_iff_exists.mp hsome with ⟨e, he⟩
      rw [he]
      exact ⟨e, rfl⟩
  · intro p hp halpha
    rw [pyDictGet_set, if_neg halpha]

/-- Witness for C7: unpacking a 1x1 RGBA image with the (RGB-only) ORM
template adds the synthetic "alpha" entry carrying the image's alpha
plane. -/
theorem C7_auto_alpha_extraction_witness :
    (unpack_texture ⟨.RGBA, 1, 1, fun b _ _ => b + 10⟩ ormTemplate).map
      (fun res => pyDictGet res "alpha") =
      .ok (some (alphaPlane ⟨.RGBA, 1, 1, fun b _ _ => b + 10⟩)) := by
  obtain ⟨base, hbase, hunp, hget, _, _⟩ :=
    C7_auto_alpha_extraction ⟨.RGBA, 1, 1, fun b _ _ => b + 10⟩ ormTemplate rfl rfl
  rw [hunp]
  show Except.ok (pyDictGet (pyDictSet base "alpha" _) "alpha") = _
  rw [hget]


/-- Claim C6: silent skip of a requested alpha slot.  For every template
whose A slot is used and every image without an alpha plane,
`unpack_texture` succeeds with no error and behaves exactly as if the A
slot were unused: the A slot contributes nothing (its map_type is absent
whenever no other used slot shares it), while all non-A used slots are
still extracted. -/
theorem C6_silent_alpha_skip (img : PILImage) (t : PackingTemplate)
    (cmA : ChannelMap) (hA : t.chA = some cmA)
    (halpha : hasAlphaPlane img = false) :
    unpack_texture img t = unpack_texture img { t with chA := none } ∧
    ∃ res, unpack_texture img t = .ok res ∧
      (∀ p ∈ ({ t with chA := none } : PackingTemplate).get_used_channels,
        ∃ e, pyDictGet res p.2.map_type = some e) ∧
      ((∀ p ∈ ({ t with chA := none } : PackingTemplate).get_used_channels,
          p.2.map_type ≠ cmA.map_type) →
        pyDictGet res cmA.map_type = none) := by
  have hm : img.mode ≠ .RGBA ∧ img.mode ≠ .LA := by
    constructor <;> intro h <;> rw [hasAlphaPlane, h] at halpha <;> simp at halpha
  have hsplit : t.get_used_channels =
      ({ t with chA := none } : PackingTemplate).get_used_channels ++ [("A", cmA)] := by
    unfold PackingTemplate.get_used_channels
    rw [hA]
    show _ ++ _ ++ _ ++ optEntry "A" (some cmA) = _ ++ _ ++ _ ++ optEntry "A" none ++ _
    simp [optEntry]
  have hbase_eq : unpackBase img t =
      unpackBase img { t with chA := none } := by
    unfold unpackBase
    rw [hsplit]
    exact unpackLoop_skip_alpha img hm.1 _ cmA []
      (used_keys_valid { t with chA := none })
  have hnoauto : unpack_texture img t = unpackBase img t :=
    unpack_eq_of_not_auto img t (by rintro ⟨h1, _⟩; exact hm.1 h1)
  have hnoauto2 : unpack_texture img { t with chA := none } =
      unpackBase img { t with chA := none } :=
    unpack_eq_of_not_auto img { t with chA := none }
      (by rintro ⟨h1, _⟩; exact hm.1 h1)
  have hok : unpackBase img { t with chA := none } =
      .ok (foldDict []
        ((({ t with chA := none } : PackingTemplate).get_used_channels).map
          (fun p => (p.2.map_type, extractVal img p.1)))) :=
    unpackLoop_ok img _ []
      (fun p hp => ⟨used_keys_valid { t with chA := none } p hp,
        fun hA' => Option.noConfusion
          (used_key_A { t with chA := none } p hp hA')⟩)
  refine ⟨by rw [hnoauto, hnoauto2, hbase_eq], _,
    by rw [hnoauto, hbase_eq, hok], ?_, ?_⟩
  · intro p hp
    have h1 : (p.2.map_type, extractVal img p.1) ∈
        (({ t with chA := none } : PackingTemplate).get_used_channels).map
          (fun p => (p.2.map_type, extractVal img p.1)) :=
      List.mem_map_of_mem (fun p => (p.2.map_type, extractVal img p.1)) hp
    have hmem := List.mem_map_of_mem (·.1) h1
    have hsome := lastVal?_isSome_of_mem _ _ hmem
    rw [pyDictGet_foldDict]
    rcases Option.isSome_iff_exists.mp hsome with ⟨e, he⟩
    rw [he]
    exact ⟨e, rfl⟩
  · intro hdist
    rw [pyDictGet_foldDict]
    rw [lastVal?_eq_none]
    · rfl
    · intro q hq
      rcases List.mem_map.mp hq with ⟨p, hp, hpq⟩
      rw [← hpq]
      exact hdist p hp

/-- Witness for C6: an RGB image unpacked with a template whose A slot
requests "opacity" succeeds; the result has no "opacity" entry but still
has the ambient-occlusion entry. -/
theorem C6_silent_alpha_skip_witness :
    (unpack_texture ⟨.RGB, 1, 1, fun b _ _ => b + 40⟩
        ⟨"T", "d", some ormAO, some ormRough, some ormMetal,
          some ⟨"opacity", 1, "Opacity"⟩⟩).map
      (fun res => (pyDictGet res "opacity",
        (pyDictGet res "ambient_occlusion").isSome)) = .ok (none, true) := by
  obtain ⟨heq, res, hok, hall, habs⟩ :=
    C6_silent_alpha_skip ⟨.RGB, 1, 1, fun b _ _ => b + 40⟩
      ⟨"T", "d", some ormAO, some ormRough, some ormMetal,
        some ⟨"opacity", 1, "Opacity"⟩⟩ ⟨"opacity", 1, "Opacity"⟩ rfl (by decide)
  rw [hok]
  have hnone := habs (by
    intro p hp
    rcases (mem_used_iff _ p).mp hp with ⟨_, hc⟩ | ⟨_, hc⟩ | ⟨_, hc⟩ | ⟨_, hc⟩ <;>
      first
        | (injection hc with hc2; rw [← hc2]; decide)
        | exact Option.noConfusion hc)
  obtain ⟨e, he⟩ := hall ("R", ormAO)
    (by simp [PackingTemplate.get_used_channels, optEntry])
  have hnone2 : pyDictGet res "opacity" = none := hnone
  have he2 : pyDictGet res "ambient_occlusion" = some e := he
  show Except.ok (pyDictGet res "opacity", (pyDictGet res "ambient_occlusion").isSome) = _
  rw [hnone2, he2]
  rfl


/-- Claim C10 (implicit): duplicate map_type collapses in unpack.  For
every template in which two or more used slots share a map_type, unpacking
the template's own packed-image mode (RGBA when A is used, RGB otherwise)
succeeds with no error, the result has strictly fewer entries than the
template has used slots, and each shared map_type maps to the plane of the
last such slot in R, G, B, A order. -/
theorem C10_duplicate_map_type_collapse (img : PILImage) (t : PackingTemplate)
    (hmode : img.mode = (if t.chA.isSome then PILMode.RGBA else PILMode.RGB))
    (hdup : ¬((t.get_used_channels.map (fun p => p.2.map_type)).Nodup)) :
    ∃ res, unpack_texture img t = .ok res ∧
      res.length < t.get_used_channels.length ∧
      ∀ mt ∈ t.get_used_channels.map (fun p => p.2.map_type),
        ∃ q, (t.get_used_channels.filter
            (fun p => p.2.map_type = mt)).getLast? = some q ∧
          pyDictGet res mt = some (planeArr img q.1) := by
  have hrgb : img.mode = .RGB ∨ img.mode = .RGBA := by
    by_cases hA : t.chA.isSome
    · rw [hmode, if_pos hA]; exact Or.inr rfl
    · rw [hmode, if_neg hA]; exact Or.inl rfl
  have hka : ∀ p ∈ t.get_used_channels, p.1 = "A" → img.mode = .RGBA := by
    intro p hp hpA
    have := used_key_A t p hp hpA
    rw [hmode, if_pos (by rw [this]; rfl)]
  have hbase : unpackBase img t =
      .ok (foldDict []
        (t.get_used_channels.map (fun p => (p.2.map_type, planeArr img p.1)))) := by
    have h := unpackLoop_ok img t.get_used_channels []
      (fun p hp => ⟨used_keys_valid t p hp, hka p hp⟩)
    unfold unpackBase
    rw [h]
    congr 1
    congr 1
    apply List.map_congr_left
    intro p hp
    rw [extractVal_rgb img p.1 hrgb]
  have hnoauto : unpack_texture img t = unpackBase img t := by
    apply unpack_eq_of_not_auto
    rintro ⟨h1, h2⟩
    by_cases hA : t.chA.isSome
    · exact h2 hA
    · rw [hmode, if_neg hA] at h1
      cases h1
  refine ⟨_, by rw [hnoauto, hbase], ?_, ?_⟩
  · have hlen := length_foldDict_nil
      (t.get_used_channels.map (fun p => (p.2.map_type, planeArr img p.1)))
    have hmaps : (t.get_used_channels.map
        (fun p => (p.2.map_type, planeArr img p.1))).map (·.1) =
        t.get_used_channels.map (fun p => p.2.map_type) := by
      rw [List.map_map]
      rfl
    rw [hmaps] at hlen
    rw [hlen]
    calc (t.get_used_channels.map (fun p => p.2.map_type)).toFinset.card
        < (t.get_used_channels.map (fun p => p.2.map_type)).length :=
          toFinset_card_lt_of_not_nodup _ hdup
      _ = t.get_used_channels.length := List.length_map _ _
  · intro mt hmt
    have hfil : (t.get_used_channels.map
        (fun p => (p.2.map_type, planeArr img p.1))).filter (fun q => q.1 = mt) =
        (t.get_used_channels.filter (fun p => p.2.map_type = mt)).map
          (fun p => (p.2.map_type, planeArr img p.1)) := by
      rw [List.filter_map]
      rfl
    have hne : (t.get_used_channels.filter (fun p => p.2.map_type = mt)) ≠ [] := by
      rcases List.mem_map.mp hmt with ⟨p, hp, hpm⟩
      intro hnil
      have : p ∈ t.get_used_channels.filter (fun p => p.2.map_type = mt) :=
        List.mem_filter.mpr ⟨hp, by simpa using hpm⟩
      rw [hnil] at this
      cases this
    rcases hql : (t.get_used_channels.filter
        (fun p => p.2.map_type = mt)).getLast? with _ | q
    · exact absurd (List.getLast?_isSome.mpr hne) (by rw [hql]; simp)
    · refine ⟨q, hql, ?_⟩
      rw [pyDictGet_foldDict]
      unfold lastVal?
      rw [hfil, List.getLast?_map, hql]
      have hqm : q.2.map_type = mt := by
        have hqmem : q ∈ t.get_used_channels.filter (fun p => p.2.map_type = mt) :=
          List.mem_of_mem_getLast? (by rw [hql]; simp)
        simpa using (List.mem_filter.mp hqmem).2
      show some ((fun p => (p.2.map_type, planeArr img p.1)) q).2 = _
      rfl

/-- Witness for C10: a template assigning map_type "x" to both R and G,
unpacked from a 1x1 RGB image, yields a single "x" entry carrying the G
plane (the last duplicate slot), fewer than the 2 used slots. -/
theorem C10_duplicate_map_type_collapse_witness :
    (unpack_texture ⟨.RGB, 1, 1, fun b _ _ => b + 5⟩
        ⟨"T", "d", some ⟨"x", 0, "X"⟩, some ⟨"x", 1, "X2"⟩, none, none⟩).map
      (fun res => (decide (res.length < 2),
        (pyDictGet res "x").map (fun e => e.data 0 0))) =
      .ok (true, some 6) := by
  obtain ⟨res, hok, hlen, hlook⟩ :=
    C10_duplicate_map_type_collapse ⟨.RGB, 1, 1, fun b _ _ => b + 5⟩
      ⟨"T", "d", some ⟨"x", 0, "X"⟩, some ⟨"x", 1, "X2"⟩, none, none⟩ rfl
      (by simp [PackingTemplate.get_used_channels, optEntry])
  rw [hok]
  obtain ⟨q, hq, hget⟩ := hlook "x"
    (by simp [PackingTemplate.get_used_channels, optEntry])
  have hq2 : q = ("G", ⟨"x", 1, "X2"⟩) := by
    have : (PackingTemplate.get_used_channels
        ⟨"T", "d", some ⟨"x", 0, "X"⟩, some ⟨"x", 1, "X2"⟩, none, none⟩).filter
        (fun p => p.2.map_type = "x") =
        [("R", ⟨"x", 0, "X"⟩), ("G", ⟨"x", 1, "X2"⟩)] := by decide
    rw [this] at hq
    have h2 : ([("R", (⟨"x", 0, "X"⟩ : ChannelMap)),
        ("G", ⟨"x", 1, "X2"⟩)]).getLast? = some ("G", ⟨"x", 1, "X2"⟩) := rfl
    rw [h2] at hq
    exact (Option.some_inj.mp hq).symm
  rw [hq2] at hget
  have hlen2 : res.length < 2 := hlen
  show Except.ok (decide (res.length < 2), (pyDictGet res "x").map (fun e => e.data 0 0)) = _
  rw [hget]
  have hd : decide (res.length < 2) = true := decide_eq_true hlen2
  rw [hd]
  rfl


theorem mkChannelMap_ok (mt : String) (dv : ℚ) (descr : Option String)
    (h1 : 0 ≤ dv) (h2 : dv ≤ 1) :
    mkChannelMap mt dv descr =
      .ok ⟨mt, dv, if descr.getD "" = "" then autoDescription mt
        else descr.getD ""⟩ := by
  unfold mkChannelMap
  rw [if_pos ⟨h1, h2⟩]

theorem parseChannelInfo_save (cm : ChannelMap) (h : cm.WFcm) :
    parseChannelInfo (saveChannel cm) = .ok (some cm) := by
  rcases cm with ⟨mt, dv, descr⟩
  rcases h with ⟨h1, h2, h3⟩
  by_cases hd : descr = autoDescription mt
  · simp only [saveChannel]
    rw [if_pos (by exact hd)]
    simp [parseChannelInfo, pyDictGet, pyFloat?, jsonToStrOpt, jsonToStr,
      mkChannelMap_ok mt dv none h1 h2]
    exact hd.symm
  · simp only [saveChannel]
    rw [if_neg (by exact hd)]
    have hne : ¬(descr = "") := fun h0 => hd (by rw [h0, h3 h0])
    simp [parseChannelInfo, pyDictGet, pyFloat?, jsonToStrOpt, jsonToStr,
      mkChannelMap_ok mt dv (some descr) h1 h2, hne]

theorem parseChannels_save (l : List (String × ChannelMap))
    (hk : ∀ p ∈ l, p.1 = "R" ∨ p.1 = "G" ∨ p.1 = "B" ∨ p.1 = "A")
    (hwf : ∀ p ∈ l, p.2.WFcm) :
    parseChannels (l.map (fun p => (p.1, saveChannel p.2))) =
      .ok (l.map (fun p => (p.1, some p.2))) := by
  induction l with
  | nil => rfl
  | cons p rest ih =>
      show parseChannels ((p.1, saveChannel p.2) :: _) = _
      unfold parseChannels
      rw [if_neg (not_not_intro (hk p (List.mem_cons_self p rest)))]
      rw [parseChannelInfo_save p.2 (hwf p (List.mem_cons_self p rest))]
      rw [ih (fun q hq => hk q (List.mem_cons_of_mem p hq))
        (fun q hq => hwf q (List.mem_cons_of_mem p hq))]
      rfl

theorem save_channels_eq (t : PackingTemplate) :
    (([("R", t.chR), ("G", t.chG), ("B", t.chB), ("A", t.chA)] :
        List (String × Option ChannelMap)).filterMap
      (fun p => p.2.map (fun cm => (p.1, saveChannel cm)))) =
      (t.get_used_channels).map (fun p => (p.1, saveChannel p.2)) := by
  rcases t with ⟨n, d, r, g, b, a⟩
  cases r <;> cases g <;> cases b <;> cases a <;> rfl

theorem used_channels_nil_iff (t : PackingTemplate) :
    t.get_used_channels = [] ↔
      t.chR = none ∧ t.chG = none ∧ t.chB = none ∧ t.chA = none := by
  rcases t with ⟨n, d, r, g, b, a⟩
  cases r <;> cases g <;> cases b <;> cases a <;>
    simp [PackingTemplate.get_used_channels, optEntry]

theorem fold_setSlot_used (t : PackingTemplate) :
    ((t.get_used_channels).map (fun p => (p.1, some p.2))).foldl
      (fun acc p => setSlot acc p.1 p.2)
      { name := t.name, description := t.description,
        chR := none, chG := none, chB := none, chA := none } = t := by
  rcases t with ⟨n, d, r, g, b, a⟩
  cases r <;> cases g <;> cases b <;> cases a <;> rfl

theorem mkPackingTemplate_some_ok (n d : String)
    (cs : List (String × Option ChannelMap))
    (hvalid : (cs.any
      (fun p => ¬(p.1 = "R" ∨ p.1 = "G" ∨ p.1 = "B" ∨ p.1 = "A"))) = false) :
    mkPackingTemplate n d (some cs) =
      .ok (cs.foldl (fun acc p => setSlot acc p.1 p.2)
        { name := n, description := d,
          chR := none, chG := none, chB := none, chA := none }) := by
  unfold mkPackingTemplate
  show (if (cs.any fun p => decide ¬(p.1 = "R" ∨ p.1 = "G" ∨ p.1 = "B" ∨ p.1 = "A")) = true
      then Except.error PyError.valueError
      else Except.ok (cs.foldl (fun acc p => setSlot acc p.1 p.2)
        { name := n, description := d,
          chR := none, chG := none, chB := none, chA := none })) = _
  rw [hvalid]
  simp

/-- Claim C9: template save/load round-trip.  For every constructor-
reachable PackingTemplate, saving it and loading the saved document yields
a template with identical name, description and channel assignments,
including unused slots staying unused and auto-generated descriptions
being recreated identically. -/
theorem C9_save_load_roundtrip (t : PackingTemplate) (hwf : t.WFt) :
    load_template (some (save_template t)) = .ok t := by
  have hwfmem : ∀ p ∈ t.get_used_channels, p.2.WFcm := by
    intro p hp
    rcases (mem_used_iff t p).mp hp with ⟨_, hc⟩ | ⟨_, hc⟩ | ⟨_, hc⟩ | ⟨_, hc⟩
    · exact hwf.1 p.2 (Option.mem_def.mpr hc)
    · exact hwf.2.1 p.2 (Option.mem_def.mpr hc)
    · exact hwf.2.2.1 p.2 (Option.mem_def.mpr hc)
    · exact hwf.2.2.2 p.2 (Option.mem_def.mpr hc)
  have hchan : parseChannels
      ((t.get_used_channels).map (fun p => (p.1, saveChannel p.2))) =
      .ok ((t.get_used_channels).map (fun p => (p.1, some p.2))) :=
    parseChannels_save _ (used_keys_valid t) hwfmem
  show (match parseChannels
      (([("R", t.chR), ("G", t.chG), ("B", t.chB), ("A", t.chA)] :
          List (String × Option ChannelMap)).filterMap
        (fun p => p.2.map (fun cm => (p.1, saveChannel cm)))) with
    | .error e => Except.error e
    | .ok channels =>
        match mkPackingTemplate (jsonToStr (Json.jstr t.name))
            (jsonToStr (Json.jstr t.description))
            (if channels.isEmpty then none else some channels) with
        | .ok t2 => Except.ok t2
        | .error _ => Except.error PyError.templateValidationError) = .ok t
  rw [save_channels_eq t, hchan]
  show (match mkPackingTemplate t.name t.description
      (if ((t.get_used_channels).map (fun p => (p.1, some p.2))).isEmpty
        then none else some ((t.get_used_channels).map (fun p => (p.1, some p.2)))) with
    | .ok t2 => Except.ok t2
    | .error _ => Except.error PyError.templateValidationError) = .ok t
  rcases hl : t.get_used_channels with _ | ⟨p0, rest⟩
  · rcases (used_channels_nil_iff t).mp hl with ⟨h1, h2, h3, h4⟩
    show Except.ok (PackingTemplate.mk t.name t.description none none none none) =
      Except.ok t
    rcases t with ⟨n, d, r, g, b, a⟩
    simp only [] at h1 h2 h3 h4
    rw [h1, h2, h3, h4]
  · have hvalid : (((p0 :: rest).map (fun p => (p.1, some p.2))).any
        (fun p => ¬(p.1 = "R" ∨ p.1 = "G" ∨ p.1 = "B" ∨ p.1 = "A"))) = false := by
      rw [List.any_eq_false]
      intro q hq
      rcases List.mem_map.mp hq with ⟨p, hp, hpq⟩
      have hk := used_keys_valid t p (by rw [hl]; exact hp)
      rw [← hpq]
      simp only [decide_eq_true_eq, not_not]
      exact hk
    show (match mkPackingTemplate t.name t.description
        (some (((p0 :: rest)).map (fun p => (p.1, some p.2)))) with
      | .ok t2 => Except.ok t2
      | .error _ => Except.error PyError.templateValidationError) = .ok t
    rw [mkPackingTemplate_some_ok t.name t.description _ hvalid]
    show Except.ok ((((p0 :: rest)).map (fun p => (p.1, some p.2))).foldl
      (fun acc p => setSlot acc p.1 p.2)
      { name := t.name, description := t.description,
        chR := none, chG := none, chB := none, chA := none }) = Except.ok t
    rw [← hl, fold_setSlot_used t]

/-- Witness for C9: the ORM template survives save followed by load
byte-for-byte (name, description and all four slots). -/
theorem C9_save_load_roundtrip_witness :
    load_template (some (save_template ormTemplate)) = .ok ormTemplate :=
  C9_save_load_roundtrip ormTemplate (by
    refine ⟨?_, ?_, ?_, ?_⟩
    · intro cm hcm
      rw [Option.mem_def] at hcm
      injection hcm with h2
      rw [← h2]
      exact ⟨by norm_num [ormAO], by norm_num [ormAO], fun h0 => absurd h0 (by decide)⟩
    · intro cm hcm
      rw [Option.mem_def] at hcm
      injection hcm with h2
      rw [← h2]
      exact ⟨by norm_num [ormRough], by norm_num [ormRough],
        fun h0 => absurd h0 (by decide)⟩
    · intro cm hcm
      rw [Option.mem_def] at hcm
      injection hcm with h2
      rw [← h2]
      exact ⟨by norm_num [ormMetal], by norm_num [ormMetal],
        fun h0 => absurd h0 (by decide)⟩
    · intro cm hcm
      rw [Option.mem_def] at hcm
      exact Option.noConfusion hcm)

/-- Claim C1 (amended): pack/unpack round-trip identity for injective
map_types.  For every template and every set of N (1..4) uint8 buffers of
identical nonzero shape, one per used slot keyed by the slot's map_type,
packing via `pack_texture_from_template` or directly via `pack_channels`
(both produce the same stack) and unpacking the resulting image with the
same template returns, for each supplied buffer, a buffer byte-identical
to the input - provided the used slots carry pairwise distinct map_types.
Without that proviso the claim fails (`C1_pack_unpack_counterexample`):
duplicate map_types collapse into one dict key and the earlier buffer is
lost. -/
theorem C1_pack_unpack_roundtrip (t : PackingTemplate)
    (textures : List (String × NpArray)) (rb gb bb ab : Option NpArray)
    (h w : Nat) (hh : h ≠ 0) (hw : w ≠ 0)
    (hrt : rb = t.chR.bind (fun cm => texGet textures cm.map_type))
    (hgt : gb = t.chG.bind (fun cm => texGet textures cm.map_type))
    (hbt : bb = t.chB.bind (fun cm => texGet textures cm.map_type))
    (hat2 : ab = t.chA.bind (fun cm => texGet textures cm.map_type))
    (hfull : ∀ p ∈ t.get_used_channels, (texGet textures p.2.map_type).isSome)
    (hne : ¬(rb = none ∧ gb = none ∧ bb = none ∧ ab = none))
    (htex : ∀ k arr, texGet textures k = some arr → arr.height = h ∧ arr.width = w)
    (hvals : ∀ arr ∈ packProvided rb gb bb ab, Uint8Valued arr)
    (hnd : ((t.get_used_channels).map (fun p => p.2.map_type)).Nodup) :
    ∃ s res, pack_texture_from_template textures t = .ok s ∧
      pack_channels rb gb bb ab = .ok s ∧
      unpack_texture (Stacked.toImage s) t = .ok res ∧
      ∀ p ∈ t.get_used_channels, ∀ buf, slotBuf rb gb bb ab p.1 = some buf →
        ∃ e, pyDictGet res p.2.map_type = some e ∧ BufEq e buf := by
  have hshape : ∀ arr ∈ packProvided rb gb bb ab, arr.height = h ∧ arr.width = w := by
    intro arr ha
    rcases (mem_packProvided rb gb bb ab arr).mp ha with hx | hx | hx | hx
    · rw [hrt] at hx
      rcases Option.bind_eq_some.mp hx with ⟨cm, _, htg⟩
      exact htex _ arr htg
    · rw [hgt] at hx
      rcases Option.bind_eq_some.mp hx with ⟨cm, _, htg⟩
      exact htex _ arr htg
    · rw [hbt] at hx
      rcases Option.bind_eq_some.mp hx with ⟨cm, _, htg⟩
      exact htex _ arr htg
    · rw [hat2] at hx
      rcases Option.bind_eq_some.mp hx with ⟨cm, _, htg⟩
      exact htex _ arr htg
  have hA : ab.isSome = t.chA.isSome := by
    rcases hcA : t.chA with _ | cm
    · rw [hat2, hcA]
      rfl
    · rw [hat2, hcA]
      show (texGet textures cm.map_type).isSome = true
      exact hfull ("A", cm) ((mem_used_iff t ("A", cm)).mpr
        (Or.inr (Or.inr (Or.inr ⟨rfl, hcA⟩))))
  have htex0 : ∀ k arr, texGet textures k = some arr →
      arr.height ≠ 0 ∧ arr.width ≠ 0 := by
    intro k arr hk
    rw [(htex k arr hk).1, (htex k arr hk).2]
    exact ⟨hh, hw⟩
  have hfse : ∀ (T : Nat × Nat) (x : Option NpArray) (c : Option ChannelMap),
      (x = none → c = none) → fillSlot T x c = x := by
    intro T x c hx
    cases x with
    | some y => rfl
    | none =>
        rw [hx rfl]
        rfl
  have hRn : rb = none → t.chR = none := by
    intro h0
    rcases hcR : t.chR with _ | cm
    · rfl
    · exfalso
      have hs : (texGet textures cm.map_type).isSome = true :=
        hfull ("R", cm) ((mem_used_iff t ("R", cm)).mpr (Or.inl ⟨rfl, hcR⟩))
      rw [hrt, hcR] at h0
      have h0' : texGet textures cm.map_type = none := h0
      rw [h0'] at hs
      exact absurd hs (by decide)
  have hGn : gb = none → t.chG = none := by
    intro h0
    rcases hcG : t.chG with _ | cm
    · rfl
    · exfalso
      have hs : (texGet textures cm.map_type).isSome = true :=
        hfull ("G", cm) ((mem_used_iff t ("G", cm)).mpr (Or.inr (Or.inl ⟨rfl, hcG⟩)))
      rw [hgt, hcG] at h0
      have h0' : texGet textures cm.map_type = none := h0
      rw [h0'] at hs
      exact absurd hs (by decide)
  have hBn : bb = none → t.chB = none := by
    intro h0
    rcases hcB : t.chB with _ | cm
    · rfl
    · exfalso
      have hs : (texGet textures cm.map_type).isSome = true :=
        hfull ("B", cm) ((mem_used_iff t ("B", cm)).mpr
          (Or.inr (Or.inr (Or.inl ⟨rfl, hcB⟩))))
      rw [hbt, hcB] at h0
      have h0' : texGet textures cm.map_type = none := h0
      rw [h0'] at hs
      exact absurd hs (by decide)
  have hAn : ab = none → t.chA = none := by
    intro h0
    rcases hcA : t.chA with _ | cm
    · rfl
    · exfalso
      have hs : (texGet textures cm.map_type).isSome = true :=
        hfull ("A", cm) ((mem_used_iff t ("A", cm)).mpr
          (Or.inr (Or.inr (Or.inr ⟨rfl, hcA⟩))))
      rw [hat2, hcA] at h0
      have h0' : texGet textures cm.map_type = none := h0
      rw [h0'] at hs
      exact absurd hs (by decide)
  have hpttpc : pack_texture_from_template textures t = pack_channels rb gb bb ab := by
    have hptt := ptt_eq textures t htex0
    rw [← hrt, ← hgt, ← hbt, ← hat2] at hptt
    rw [hptt]
    unfold pttFinish
    rw [hfse _ rb t.chR hRn, hfse _ gb t.chG hGn, hfse _ bb t.chB hBn,
      hfse _ ab t.chA hAn]
  have hnz : ∀ arr ∈ packProvided rb gb bb ab, arr.height ≠ 0 ∧ arr.width ≠ 0 := by
    intro arr ha
    rw [(hshape arr ha).1, (hshape arr ha).2]
    exact ⟨hh, hw⟩
  have hpk := pack_channels_eq rb gb bb ab hne hnz
  have hpne := packProvided_ne_nil rb gb bb ab hne
  obtain ⟨x, xs, hx⟩ : ∃ x xs, packProvided rb gb bb ab = x :: xs := by
    rcases hxx : packProvided rb gb bb ab with _ | ⟨x, xs⟩
    · exact absurd hxx hpne
    · exact ⟨x, xs, rfl⟩
  have hxmem : x ∈ packProvided rb gb bb ab := by
    rw [hx]
    exact List.mem_cons_self x xs
  have hmax : packMaxW rb gb bb ab = w ∧ packMaxH rb gb bb ab = h :=
    packMax_eq_of_bounds rb gb bb ab w h
      (fun arr ha => ⟨le_of_eq (hshape arr ha).2, le_of_eq (hshape arr ha).1⟩)
      ⟨x, hxmem, (hshape x hxmem).2⟩ ⟨x, hxmem, (hshape x hxmem).1⟩
  obtain ⟨s, hpks, hsh, hsw, hsnch, hdata⟩ : ∃ s, pack_channels rb gb bb ab = .ok s ∧
      s.height = h ∧ s.width = w ∧ s.nch = (if ab.isSome then 4 else 3) ∧
      ∀ p ∈ t.get_used_channels, ∀ buf, slotBuf rb gb bb ab p.1 = some buf →
        ∀ i j, s.data (channelIndex p.1) i j = buf.data i j := by
    refine ⟨_, hpk, ?_, ?_, ?_, ?_⟩
    · exact hmax.2
    · exact hmax.1
    · exact packAssemble_nch (packMaxH rb gb bb ab) (packMaxW rb gb bb ab)
        rb gb bb ab (packNf (packMaxW rb gb bb ab) (packMaxH rb gb bb ab))
    · intro p hp buf hsb i j
      rcases used_keys_valid t p hp with hk | hk | hk | hk
      · rw [hk, slotBuf, if_pos rfl] at hsb
        have hbmem : buf ∈ packProvided rb gb bb ab :=
          (mem_packProvided rb gb bb ab buf).mpr (Or.inl hsb)
        rw [hk]
        have hch : channelIndex "R" = 0 := rfl
        rw [hch]
        rw [packAssemble_data_R (packMaxH rb gb bb ab) (packMaxW rb gb bb ab)
          rb gb bb ab (packNf (packMaxW rb gb bb ab) (packMaxH rb gb bb ab)) buf hsb i j]
        rw [packNf_at_target (packMaxW rb gb bb ab) (packMaxH rb gb bb ab) buf
          (by rw [(hshape buf hbmem).2, hmax.1]) (by rw [(hshape buf hbmem).1, hmax.2])]
      · rw [hk, slotBuf, if_neg (by decide), if_pos rfl] at hsb
        have hbmem : buf ∈ packProvided rb gb bb ab :=
          (mem_packProvided rb gb bb ab buf).mpr (Or.inr (Or.inl hsb))
        rw [hk]
        have hch : channelIndex "G" = 1 := rfl
        rw [hch]
        rw [packAssemble_data_G (packMaxH rb gb bb ab) (packMaxW rb gb bb ab)
          rb gb bb ab (packNf (packMaxW rb gb bb ab) (packMaxH rb gb bb ab)) buf hsb i j]
        rw [packNf_at_target (packMaxW rb gb bb ab) (packMaxH rb gb bb ab) buf
          (by rw [(hshape buf hbmem).2, hmax.1]) (by rw [(hshape buf hbmem).1, hmax.2])]
      · rw [hk, slotBuf, if_neg (by decide), if_neg (by decide), if_pos rfl] at hsb
        have hbmem : buf ∈ packProvided rb gb bb ab :=
          (mem_packProvided rb gb bb ab buf).mpr (Or.inr (Or.inr (Or.inl hsb)))
        rw [hk]
        have hch : channelIndex "B" = 2 := rfl
        rw [hch]
        rw [packAssemble_data_B (packMaxH rb gb bb ab) (packMaxW rb gb bb ab)
          rb gb bb ab (packNf (packMaxW rb gb bb ab) (packMaxH rb gb bb ab)) buf hsb i j]
        rw [packNf_at_target (packMaxW rb gb bb ab) (packMaxH rb gb bb ab) buf
          (by rw [(hshape buf hbmem).2, hmax.1]) (by rw [(hshape buf hbmem).1, hmax.2])]
      · rw [hk, slotBuf, if_neg (by decide), if_neg (by decide), if_neg (by decide),
          if_pos rfl] at hsb
        have hbmem : buf ∈ packProvided rb gb bb ab :=
          (mem_packProvided rb gb bb ab buf).mpr (Or.inr (Or.inr (Or.inr hsb)))
        rw [hk]
        have hch : channelIndex "A" = 3 := rfl
        rw [hch]
        rw [packAssemble_data_A (packMaxH rb gb bb ab) (packMaxW rb gb bb ab)
          rb gb bb ab (packNf (packMaxW rb gb bb ab) (packMaxH rb gb bb ab)) buf hsb i j]
        rw [packNf_at_target (packMaxW rb gb bb ab) (packMaxH rb gb bb ab) buf
          (by rw [(hshape buf hbmem).2, hmax.1]) (by rw [(hshape buf hbmem).1, hmax.2])]
  have hmode : (Stacked.toImage s).mode =
      (if ab.isSome then PILMode.RGBA else PILMode.RGB) := by
    show (if s.nch = 4 then PILMode.RGBA else PILMode.RGB) = _
    rw [hsnch]
    rcases Bool.eq_false_or_eq_true ab.isSome with hab | hab
    · rw [hab]
      rfl
    · rw [hab]
      rfl
  have hrgb : (Stacked.toImage s).mode = .RGB ∨ (Stacked.toImage s).mode = .RGBA := by
    rw [hmode]
    rcases Bool.eq_false_or_eq_true ab.isSome with hab | hab
    · rw [if_pos hab]
      exact Or.inr rfl
    · rw [if_neg (by simp [hab])]
      exact Or.inl rfl
  have hnoauto : ¬((Stacked.toImage s).mode = .RGBA ∧ ¬t.chA.isSome) := by
    rintro ⟨h1, h2⟩
    rw [hmode] at h1
    rcases Bool.eq_false_or_eq_true ab.isSome with hab | hab
    · rw [hA] at hab
      exact h2 hab
    · rw [if_neg (by simp [hab])] at h1
      cases h1
  have hbase : unpackBase (Stacked.toImage s) t =
      .ok (foldDict [] (t.get_used_channels.map
        (fun p => (p.2.map_type, planeArr (Stacked.toImage s) p.1)))) := by
    have hka : ∀ p ∈ t.get_used_channels,
        (p.1 = "R" ∨ p.1 = "G" ∨ p.1 = "B" ∨ p.1 = "A") ∧
        (p.1 = "A" → (Stacked.toImage s).mode = .RGBA) := by
      intro p hp
      refine ⟨used_keys_valid t p hp, ?_⟩
      intro hpA
      have hcA := used_key_A t p hp hpA
      have hab : ab.isSome = true := by
        rw [hA, hcA]
        rfl
      rw [hmode, if_pos hab]
    have hl := unpackLoop_ok (Stacked.toImage s) t.get_used_channels [] hka
    unfold unpackBase
    rw [hl]
    congr 1
    congr 1
    apply List.map_congr_left
    intro p hp
    rw [extractVal_rgb (Stacked.toImage s) p.1 hrgb]
  refine ⟨s, foldDict [] (t.get_used_channels.map
      (fun p => (p.2.map_type, planeArr (Stacked.toImage s) p.1))),
    by rw [hpttpc]; exact hpks, hpks, ?_, ?_⟩
  · rw [unpack_eq_of_not_auto _ _ hnoauto, hbase]
  · intro p hp buf hsb
    have hdat := hdata p hp buf hsb
    have hbmem : buf ∈ packProvided rb gb bb ab := by
      rcases used_keys_valid t p hp with hk | hk | hk | hk
      · rw [hk, slotBuf, if_pos rfl] at hsb
        exact (mem_packProvided rb gb bb ab buf).mpr (Or.inl hsb)
      · rw [hk, slotBuf, if_neg (by decide), if_pos rfl] at hsb
        exact (mem_packProvided rb gb bb ab buf).mpr (Or.inr (Or.inl hsb))
      · rw [hk, slotBuf, if_neg (by decide), if_neg (by decide), if_pos rfl] at hsb
        exact (mem_packProvided rb gb bb ab buf).mpr (Or.inr (Or.inr (Or.inl hsb)))
      · rw [hk, slotBuf, if_neg (by decide), if_neg (by decide), if_neg (by decide),
          if_pos rfl] at hsb
        exact (mem_packProvided rb gb bb ab buf).mpr (Or.inr (Or.inr (Or.inr hsb)))
    refine ⟨planeArr (Stacked.toImage s) p.1, ?_, ?_, ?_, ?_⟩
    · rw [pyDictGet_foldDict]
      have hmaps : ((t.get_used_channels.map
          (fun q => (q.2.map_type, planeArr (Stacked.toImage s) q.1))).map (·.1)) =
          t.get_used_channels.map (fun q => q.2.map_type) := by
        rw [List.map_map]
        rfl
      have hnd2 : ((t.get_used_channels.map
          (fun q => (q.2.map_type, planeArr (Stacked.toImage s) q.1))).map (·.1)).Nodup := by
        rw [hmaps]
        exact hnd
      have hmem2 := List.mem_map_of_mem
        (fun q => (q.2.map_type, planeArr (Stacked.toImage s) q.1)) hp
      rw [lastVal?_eq_of_nodup _ _ _ hnd2 hmem2]
      rfl
    · show s.height = buf.height
      rw [hsh, (hshape buf hbmem).1]
    · show s.width = buf.width
      rw [hsw, (hshape buf hbmem).2]
    · intro i hi j hj
      have hi2 : i < buf.height := by
        have hi3 : i < s.height := hi
        rw [hsh] at hi3
        rw [(hshape buf hbmem).1]
        exact hi3
      have hj2 : j < buf.width := by
        have hj3 : j < s.width := hj
        rw [hsw] at hj3
        rw [(hshape buf hbmem).2]
        exact hj3
      show Int.ofNat ((s.data (channelIndex p.1) i j).toNat) = buf.data i j
      rw [hdat i j]
      exact Int.toNat_of_nonneg ((hvals buf hbmem) i hi2 j hj2).1

/-- Witness for C1: packing 1x1 buffers 200/100/50 into the ORM template's
three used slots through `pack_texture_from_template` and unpacking with
the same template returns each value under its map_type unchanged. -/
theorem C1_pack_unpack_roundtrip_witness :
    ((pack_texture_from_template
        [("ambient_occlusion", constArr 1 1 200), ("roughness", constArr 1 1 100),
          ("metallic", constArr 1 1 50)] ormTemplate).bind
      (fun s => unpack_texture (Stacked.toImage s) ormTemplate)).map
      (fun res => ((pyDictGet res "ambient_occlusion").map (fun e => e.data 0 0),
        (pyDictGet res "roughness").map (fun e => e.data 0 0),
        (pyDictGet res "metallic").map (fun e => e.data 0 0))) =
      .ok (some 200, some 100, some 50) := by
  obtain ⟨s, res, hptt, hok, hunp, hlook⟩ :=
    C1_pack_unpack_roundtrip ormTemplate
      [("ambient_occlusion", constArr 1 1 200), ("roughness", constArr 1 1 100),
        ("metallic", constArr 1 1 50)]
      (some (constArr 1 1 200)) (some (constArr 1 1 100)) (some (constArr 1 1 50))
      none 1 1 (by decide) (by decide) rfl rfl rfl rfl
      (by decide) (by simp)
      (by
        intro k arr hk
        rcases hf : List.find? (fun p => p.1 = k)
            [("ambient_occlusion", constArr 1 1 200), ("roughness", constArr 1 1 100),
              ("metallic", constArr 1 1 50)] with _ | q
        · rw [texGet, hf] at hk
          exact Option.noConfusion hk
        · have hqm := List.mem_of_find?_eq_some hf
          rw [texGet, hf] at hk
          have hk' : some q.2 = some arr := hk
          have harr : q.2 = arr := Option.some_inj.mp hk'
          simp only [List.mem_cons, List.not_mem_nil, or_false] at hqm
          rcases hqm with rfl | rfl | rfl
          · rw [← harr]
            exact ⟨rfl, rfl⟩
          · rw [← harr]
            exact ⟨rfl, rfl⟩
          · rw [← harr]
            exact ⟨rfl, rfl⟩)
      (by
        intro arr ha
        rcases (mem_packProvided _ _ _ _ arr).mp ha with hx | hx | hx | hx
        · rcases Option.some_inj.mp hx with rfl
          intro i _ j _
          exact ⟨show (0 : Int) ≤ 200 by decide, show (200 : Int) ≤ 255 by decide⟩
        · rcases Option.some_inj.mp hx with rfl
          intro i _ j _
          exact ⟨show (0 : Int) ≤ 100 by decide, show (100 : Int) ≤ 255 by decide⟩
        · rcases Option.some_inj.mp hx with rfl
          intro i _ j _
          exact ⟨show (0 : Int) ≤ 50 by decide, show (50 : Int) ≤ 255 by decide⟩
        · exact Option.noConfusion hx)
      (by decide)
  obtain ⟨e1, he1, hb1⟩ := hlook ("R", ormAO)
    (by simp [ormTemplate, PackingTemplate.get_used_channels, optEntry])
    (constArr 1 1 200) rfl
  obtain ⟨e2, he2, hb2⟩ := hlook ("G", ormRough)
    (by simp [ormTemplate, PackingTemplate.get_used_channels, optEntry])
    (constArr 1 1 100) rfl
  obtain ⟨e3, he3, hb3⟩ := hlook ("B", ormMetal)
    (by simp [ormTemplate, PackingTemplate.get_used_channels, optEntry])
    (constArr 1 1 50) rfl
  rw [hptt]
  show (unpack_texture (Stacked.toImage s) ormTemplate).map
      (fun res => ((pyDictGet res "ambient_occlusion").map (fun e => e.data 0 0),
        (pyDictGet res "roughness").map (fun e => e.data 0 0),
        (pyDictGet res "metallic").map (fun e => e.data 0 0))) =
      Except.ok (some 200, some 100, some 50)
  rw [hunp]
  show Except.ok ((pyDictGet res "ambient_occlusion").map (fun e => e.data 0 0),
      (pyDictGet res "roughness").map (fun e => e.data 0 0),
      (pyDictGet res "metallic").map (fun e => e.data 0 0)) =
    Except.ok (some 200, some 100, some 50)
  have he1' : pyDictGet res "ambient_occlusion" = some e1 := he1
  have he2' : pyDictGet res "roughness" = some e2 := he2
  have he3' : pyDictGet res "metallic" = some e3 := he3
  rw [he1', he2', he3']
  have hd1 : e1.data 0 0 = 200 := by
    have h0h : (0 : Nat) < e1.height := by
      rw [hb1.1]
      decide
    have h0w : (0 : Nat) < e1.width := by
      rw [hb1.2.1]
      decide
    rw [hb1.2.2 0 h0h 0 h0w]
    rfl
  have hd2 : e2.data 0 0 = 100 := by
    have h0h : (0 : Nat) < e2.height := by
      rw [hb2.1]
      decide
    have h0w : (0 : Nat) < e2.width := by
      rw [hb2.2.1]
      decide
    rw [hb2.2.2 0 h0h 0 h0w]
    rfl
  have hd3 : e3.data 0 0 = 50 := by
    have h0h : (0 : Nat) < e3.height := by
      rw [hb3.1]
      decide
    have h0w : (0 : Nat) < e3.width := by
      rw [hb3.2.1]
      decide
    rw [hb3.2.2 0 h0h 0 h0w]
    rfl
  simp only [Option.map_some']
  rw [hd1, hd2, hd3]

/-- Counterexample to C1 as stated: a template whose R and G slots carry
the same map_type "x" packs buffers 10 and 20, but unpacking returns a
single "x" buffer holding 20 - the R input 10 is not returned
byte-identical (it is not returned at all), refuting the unconditional
round-trip claim. -/
theorem C1_pack_unpack_counterexample :
    ((pack_channels (some (constArr 1 1 10)) (some (constArr 1 1 20)) none none).bind
      (fun s => unpack_texture (Stacked.toImage s)
        ⟨"T", "d", some ⟨"x", 0, "X"⟩, some ⟨"x", 1, "X2"⟩, none, none⟩)).map
      (fun res => (pyDictGet res "x").map (fun e => e.data 0 0)) =
      .ok (some 20) ∧ (20 : Int) ≠ 10 :=
  ⟨by rfl, by decide⟩

end ChannelSmith
